import Mathlib

/- A shallow embedding, over exact rational arithmetic, of landlab's
SedDepEroder component (landlab/components/stream_power/sed_flux_dep_incision.py).

Modelling conventions:
  * numpy float arrays indexed by node id become functions `ℕ → ℚ`;
  * the power-law exponents (m_sp, n_sp, m_t, n_t) are modelled as integers
    acting through `zpow`, so that every definition stays executable over `ℚ`;
  * the NaN-filled per-node link-length array becomes `ℕ → Option ℚ`
    (`none` plays the role of NaN, and `nanmin` skips it);
  * `np.spacing(0.)` (the smallest positive subnormal double) becomes the
    positive rational `machineEps`;
  * the unbounded `while 1` sub-step loop becomes a fuel-indexed recursion
    that reports whether it reached the `break` statement;
  * the compiled Cython kernel `iterate_sde_downstream` and the response
    functions (module `cfuncs`) are not part of the reviewed sources; they
    are modelled from the specification where marked. -/

namespace SedDep

/-- Number of seconds in a year as used by the component: 31557600
(`K_sp / 31557600.`, `dt_secs = dt * 31557600.`). -/
def secondsPerYear : ℚ := 31557600

/-- Module-level constant `WAVE_STABILITY_PREFACTOR = 0.2`. -/
def WAVE_STABILITY_PREFACTOR : ℚ := 1 / 5

/-- The CHILD-like convergence safety factor `conv_factor = 0.3` set at the
top of every pass of the sub-step loop. -/
def conv_factor : ℚ := 3 / 10

/-- `np.spacing(0.)`: the smallest positive subnormal double, used to floor
the slope array before the wave-stability division. -/
def machineEps : ℚ := 1 / 2 ^ 1074

/-- `flood_node` is initialised to `None` at the top of every pass of the
sub-step loop and never reassigned, so the one-hour floor guarded by
`flood_node is not None` can never fire. -/
def flood_node : Option ℕ := none

/-- Pointwise update of a per-node rational array (numpy item assignment). -/
def upd (f : ℕ → ℚ) (i : ℕ) (v : ℚ) : ℕ → ℚ :=
  fun j => if j = i then v else f j

/-- Minimum of a list of rationals, `np.amin` / `np.nanmin` after NaN removal.
The empty-list value 0 is never relied upon: every use either carries a
nonemptiness hypothesis or is applied to a nonempty list. -/
def listMin : List ℚ → ℚ
  | [] => 0
  | x :: xs => xs.foldl min x

/-- Configuration of `SedDepEroder.__init__` for the `power_law` transport
law.  `sedFluxFn` is the response function selected by
`set_sed_flux_fn_gen` (a function pointer in the source). -/
structure SDEConfig where
  K_sp : ℚ
  m_sp : ℤ
  n_sp : ℤ
  K_t : ℚ
  m_t : ℤ
  n_t : ℤ
  sedFluxFn : ℚ → ℚ

/-- `self._K_unit_time = K_sp / 31557600.` (per-second erosion prefactor). -/
def K_unit_time (c : SDEConfig) : ℚ := c.K_sp / secondsPerYear

/-- `self._Kt = K_t / 31557600.` (per-second transport prefactor). -/
def Kt_unit (c : SDEConfig) : ℚ := c.K_t / secondsPerYear

/-- Modelled from the spec: `sed_flux_fn_gen_const` (shape 'None') from the
missing Cython module `cfuncs`; the constant response `f(x) = 1`. -/
def sed_flux_fn_gen_const (_ : ℚ) : ℚ := 1

/-- Modelled from the spec: `sed_flux_fn_gen_lindecl` (shape 'linear_decline')
from the missing Cython module `cfuncs`; decreases linearly from 1 at x = 0
to 0 at x = 1. -/
def sed_flux_fn_gen_lindecl (x : ℚ) : ℚ := 1 - x

/-- The dense sample `np.arange(0., 1.001, 0.001)` of `set_sed_flux_fn_gen`:
the points 0, 0.001, ..., 1.0. -/
def humpSample : List ℚ := (List.range 1001).map (fun k => (k : ℚ) / 1000)

/-- The `max_val` loop of `set_sed_flux_fn_gen` for 'generalized_humped':
fold `max_val = max((sff, max_val))` over the dense sample, starting from 0.
The unnormalised hump (the Cython `sed_flux_fn_gen_genhump` evaluated with
norm 1) is passed in as `hump`, since its body is not part of the reviewed
sources. -/
def genhumpMaxVal (hump : ℚ → ℚ) : ℚ :=
  humpSample.foldl (fun m x => max (hump x) m) 0

/-- `self.norm = 1. / max_val` stored by `set_sed_flux_fn_gen`. -/
def genhumpNorm (hump : ℚ → ℚ) : ℚ := 1 / genhumpMaxVal hump

/-- The grid- and flow-router-supplied inputs read by one call to `erode`.
`steepest_link n = none` models `flow__link_to_receiver_node` holding
`BAD_INDEX_VALUE` at `n`; `receiverSize` is the length of the
`flow__receiver_node` array (unequal to `nnodes` for a route-to-multiple
flow director). -/
structure ErodeEnv where
  nnodes : ℕ
  receiverSize : ℕ
  node_z : ℕ → ℚ
  node_A : ℕ → ℚ
  flow_receiver : ℕ → ℕ
  s_in : List ℕ
  node_S : ℕ → ℚ
  steepest_link : ℕ → Option ℕ
  hillslope_sediment : ℕ → ℚ
  coreNodes : List ℕ
  nodeAtCell : List ℕ
  area_of_cell : ℕ → ℚ
  length_of_d8 : ℕ → ℚ

/-- `draining_nodes = np.not_equal(grid.at_node[steepest_link], BAD_INDEX_VALUE)`
intersected with `grid.core_nodes`. -/
def coreDrainingNodes (e : ErodeEnv) : List ℕ :=
  (List.range e.nnodes).filter
    (fun n => (e.steepest_link n).isSome && decide (n ∈ e.coreNodes))

/-- The length of node `n`'s steepest downslope link
(`grid.length_of_d8[grid.at_node[steepest_link][n]]`). -/
def linkLenQ (e : ErodeEnv) (n : ℕ) : ℚ :=
  e.length_of_d8 ((e.steepest_link n).getD 0)

/-- The NaN-filled `link_length` array: defined (some) exactly on the core
draining nodes. -/
def link_length (e : ErodeEnv) (n : ℕ) : Option ℚ :=
  if n ∈ coreDrainingNodes e then some (linkLenQ e n) else none

/-- `erosion_prefactor_withA = self._K_unit_time * node_A ** self._m`. -/
def erosion_prefactor_withA (c : SDEConfig) (e : ErodeEnv) (n : ℕ) : ℚ :=
  K_unit_time c * e.node_A n ^ c.m_sp

/-- `transport_capacity_prefactor_withA = self._Kt * node_A ** self._mt`. -/
def transport_capacity_prefactor_withA (c : SDEConfig) (e : ErodeEnv) (n : ℕ) : ℚ :=
  Kt_unit c * e.node_A n ^ c.m_t

/-- `np.isclose(self._n, 1.)` with numpy's default tolerances
(atol 1e-8, rtol 1e-5, target 1). -/
def iscloseOne (q : ℚ) : Bool :=
  decide (|q - 1| ≤ 1 / 100000000 + 1 / 100000 * 1)

/-- `wave_stab_cond_denominator`: `erosion_prefactor_withA` when n_sp is
close to 1, otherwise additionally corrected by
`downward_slopes ** (n_sp - 1)` where `downward_slopes = node_S.clip(np.spacing(0.))`
floors the slope to machine epsilon. -/
def wave_stab_cond_denominator (c : SDEConfig) (e : ErodeEnv) (n : ℕ) : ℚ :=
  if iscloseOne (c.n_sp : ℚ) then erosion_prefactor_withA c e n
  else erosion_prefactor_withA c e n * max (e.node_S n) machineEps ^ (c.n_sp - 1)

/-- The per-node ratios `link_length / wave_stab_cond_denominator`, with the
NaN entries (non core-draining nodes) dropped, as `np.nanmin` drops them. -/
def waveRatios (c : SDEConfig) (e : ErodeEnv) : List ℚ :=
  (List.range e.nnodes).filterMap
    (fun n => (link_length e n).map (fun L => L / wave_stab_cond_denominator c e n))

/-- `max_tstep_wave = WAVE_STABILITY_PREFACTOR * np.nanmin(link_length / wave_stab_cond_denominator)`. -/
def max_tstep_wave (c : SDEConfig) (e : ErodeEnv) : ℚ :=
  WAVE_STABILITY_PREFACTOR * listMin (waveRatios c e)

/-- The scratch outputs of one pass of the downstream kernel:
`river_volume_flux_into_node`, `dzbydt`, `self._voldroprate`,
`rel_sed_flux` and `self._is_it_TL`. -/
structure KernelAcc where
  river_in : ℕ → ℚ
  dzbydt : ℕ → ℚ
  voldroprate : ℕ → ℚ
  rel_sed_flux : ℕ → ℚ
  is_it_TL : ℕ → Bool

/-- All-zero kernel state: the arrays are freshly zero-filled before every
sub-step (`river_volume_flux_into_node = np.zeros(...)`, `dzbydt.fill(0.)`,
`self._is_it_TL = np.zeros(..., dtype=np.int8)`, fresh `_voldroprate`). -/
def kernelInit : KernelAcc :=
  { river_in := fun _ => 0
    dzbydt := fun _ => 0
    voldroprate := fun _ => 0
    rel_sed_flux := fun _ => 0
    is_it_TL := fun _ => false }

/-- Modelled from the spec: one node of the compiled Cython kernel
`iterate_sde_downstream` (module `cfuncs`, not in the reviewed sources),
following spec section 4.4.  Boundary (non-core) nodes are skipped.  At a
core node `n`, the incoming sediment discharge is the hillslope supply plus
the accumulated upstream deliveries.  If it is below capacity the node is
detachment-limited: the bedrock lowering rate is the stream-power term
times the response function of the relative flux, and the full incoming
discharge is forwarded to the receiver.  Otherwise the node is
transport-limited: no bedrock erosion, the surplus `Qs - Qc` is recorded as
the volumetric deposition rate (the porosity correction
`rho_sed / rho_rock` is the identity at the component's default equal
densities and the spec's flooded-node sentence requires the whole surplus
to be deposited, so it is modelled as the identity), and the forwarded
discharge is capped at the capacity `Qc`. -/
def processNode (core : List ℕ) (hillFlux Qc EprefS : ℕ → ℚ)
    (recv : ℕ → ℕ) (f : ℚ → ℚ) (acc : KernelAcc) (n : ℕ) : KernelAcc :=
  if n ∈ core then
    let Qs := hillFlux n + acc.river_in n
    if Qs < Qc n then
      { acc with
        dzbydt := upd acc.dzbydt n (-(EprefS n * f (Qs / Qc n)))
        rel_sed_flux := upd acc.rel_sed_flux n (Qs / Qc n)
        river_in := upd acc.river_in (recv n) (acc.river_in (recv n) + Qs) }
    else
      { acc with
        is_it_TL := fun j => if j = n then true else acc.is_it_TL j
        dzbydt := upd acc.dzbydt n 0
        voldroprate := upd acc.voldroprate n (Qs - Qc n)
        rel_sed_flux := upd acc.rel_sed_flux n (Qs / Qc n)
        river_in := upd acc.river_in (recv n) (acc.river_in (recv n) + Qc n) }
  else acc

/-- Modelled from the spec: the full pass of `iterate_sde_downstream`
over the processing order (headwater-first, each node strictly before its
receiver). -/
def iterate_sde_downstream (order core : List ℕ) (hillFlux Qc EprefS : ℕ → ℚ)
    (recv : ℕ → ℕ) (f : ℚ → ℚ) : KernelAcc :=
  order.foldl (processNode core hillFlux Qc EprefS recv f) kernelInit

/-- The node list `botharepositive` of the CHILD-like convergence test:
nodes whose receiver's elevation rate exceeds their own
(`ratediff = dzbydt[flow_receiver] - dzbydt > 0`) and which sit above their
receiver (`downstr_vert_diff = node_z - node_z[flow_receiver] > 0`). -/
def convergingPairs (nnodes : ℕ) (dzbydt z : ℕ → ℚ) (recv : ℕ → ℕ) : List ℕ :=
  (List.range nnodes).filter
    (fun n => decide (0 < dzbydt (recv n) - dzbydt n) &&
              decide (0 < z n - z (recv n)))

/-- `t_to_converge` right before the minimum with the wave bound: the
minimum crossing time over the converging pairs, with the `ValueError`
fallback `t_to_converge = dt_secs` when no pair converges, then scaled by
`conv_factor` (the scaling `t_to_converge *= conv_factor` is applied
unconditionally, to the fallback as well). -/
def t_to_converge_preWave (nnodes : ℕ) (dzbydt z : ℕ → ℚ) (recv : ℕ → ℕ)
    (dt_secs : ℚ) : ℚ :=
  conv_factor *
    (if convergingPairs nnodes dzbydt z recv = [] then dt_secs
     else listMin ((convergingPairs nnodes dzbydt z recv).map
       (fun n => (z n - z (recv n)) / (dzbydt (recv n) - dzbydt n))))

/-- The mutable locals of the sub-step loop: `node_z`, `elev_less_sed`,
`self._hillslope_sediment` (zero-filled before the loop), the working
`downward_slopes`, and `t_elapsed_internal`. -/
structure LoopSt where
  node_z : ℕ → ℚ
  elev_less_sed : ℕ → ℚ
  hillslope_sed : ℕ → ℚ
  downward_slopes : ℕ → ℚ
  t_elapsed_internal : ℚ

/-- `transport_capacities = transport_capacity_prefactor_withA * slopes_tothent`
where `slopes_tothent = downward_slopes ** n_t` with the flooded entries
zeroed. -/
def substepCaps (c : SDEConfig) (e : ErodeEnv) (is_flooded : ℕ → Bool)
    (st : LoopSt) (n : ℕ) : ℚ :=
  transport_capacity_prefactor_withA c e n *
    (if is_flooded n then 0 else st.downward_slopes n ^ c.n_t)

/-- `erosion_prefactor_withS = erosion_prefactor_withA * slopes_tothen`
where `slopes_tothen = downward_slopes ** n_sp` with the flooded entries
zeroed. -/
def substepEpref (c : SDEConfig) (e : ErodeEnv) (is_flooded : ℕ → Bool)
    (st : LoopSt) (n : ℕ) : ℚ :=
  erosion_prefactor_withA c e n *
    (if is_flooded n then 0 else st.downward_slopes n ^ c.n_sp)

/-- The kernel pass of one sub-step. -/
def substepOut (c : SDEConfig) (e : ErodeEnv) (is_flooded : ℕ → Bool)
    (hillFlux : ℕ → ℚ) (st : LoopSt) : KernelAcc :=
  iterate_sde_downstream e.s_in e.coreNodes hillFlux
    (substepCaps c e is_flooded st) (substepEpref c e is_flooded st)
    e.flow_receiver c.sedFluxFn

/-- `this_tstep` before the elapsed-time bookkeeping: the convergence
candidate, capped by `max_tstep_wave`, run through the (dead, since
`flood_node` is always `None`) one-hour floor, and capped by `dt_secs`. -/
def substepThis0 (c : SDEConfig) (e : ErodeEnv) (is_flooded : ℕ → Bool)
    (dt_secs mtw : ℚ) (hillFlux : ℕ → ℚ) (st : LoopSt) : ℚ :=
  let t1 := min (t_to_converge_preWave e.nnodes
      (substepOut c e is_flooded hillFlux st).dzbydt st.node_z
      e.flow_receiver dt_secs) mtw
  let t2 := if t1 < 3600 ∧ flood_node.isSome then 3600 else t1
  min t2 dt_secs

/-- The sub-step length actually applied to the state: `this_tstep`, trimmed
by `this_tstep -= t_elapsed_internal - dt_secs` when the cumulative elapsed
time reaches `dt_secs`. -/
def substepApplied (c : SDEConfig) (e : ErodeEnv) (is_flooded : ℕ → Bool)
    (dt_secs mtw : ℚ) (hillFlux : ℕ → ℚ) (st : LoopSt) : ℚ :=
  let this0 := substepThis0 c e is_flooded dt_secs mtw hillFlux st
  if dt_secs ≤ st.t_elapsed_internal + this0 then
    this0 - (st.t_elapsed_internal + this0 - dt_secs)
  else this0

/-- The record of one executed sub-step: the kernel outputs, the capacity
and erosion-prefactor arrays of that pass, the applied (possibly trimmed)
sub-step length, and whether the `break` condition fired. -/
structure SubstepRec where
  out : KernelAcc
  transport_capacities : ℕ → ℚ
  erosion_prefactor_withS : ℕ → ℚ
  this_tstep : ℚ
  brk : Bool

/-- One pass of the `while 1` sub-step loop of `erode` (lines 672-768):
build the slope-dependent capacity and erosion arrays (flooded entries
zeroed), run the downstream kernel, derive the stable sub-step from the
convergence and wave criteria, advance the elapsed time, rebuild the
sediment depth at cell-bearing nodes from the deposition rate, apply the
bedrock lowering to `elev_less_sed` at core nodes, reassemble
`node_z = elev_less_sed + hillslope_sediment` at core nodes, and (when not
breaking) recompute the slopes from the just-updated elevations along the
fixed receiver links, clipped at zero. -/
def substep (c : SDEConfig) (e : ErodeEnv) (is_flooded : ℕ → Bool)
    (dt_secs mtw : ℚ) (hillFlux : ℕ → ℚ) (st : LoopSt) : LoopSt × SubstepRec :=
  let out := substepOut c e is_flooded hillFlux st
  let this0 := substepThis0 c e is_flooded dt_secs mtw hillFlux st
  let elapsed' := st.t_elapsed_internal + this0
  let thisT := substepApplied c e is_flooded dt_secs mtw hillFlux st
  let hill' : ℕ → ℚ := fun n =>
    if n ∈ e.nodeAtCell then out.voldroprate n / e.area_of_cell n * thisT
    else st.hillslope_sed n
  let els' : ℕ → ℚ := fun n =>
    if n ∈ e.coreNodes then st.elev_less_sed n + out.dzbydt n * thisT
    else st.elev_less_sed n
  let z' : ℕ → ℚ := fun n =>
    if n ∈ e.coreNodes then els' n + hill' n else st.node_z n
  let ds' : ℕ → ℚ :=
    if dt_secs ≤ elapsed' then st.downward_slopes
    else fun n =>
      max (if n ∈ coreDrainingNodes e then
             (z' n - z' (e.flow_receiver n)) / linkLenQ e n
           else 0) 0
  (⟨z', els', hill', ds', elapsed'⟩,
   ⟨out, substepCaps c e is_flooded st, substepEpref c e is_flooded st,
    thisT, decide (dt_secs ≤ elapsed')⟩)

/-- The fuel-indexed `while 1` loop.  Returns the final state, the list of
executed sub-step records, and whether the loop reached its `break`
(`false` means the fuel ran out first, which has no counterpart in the
unbounded source loop). -/
def erodeLoop (c : SDEConfig) (e : ErodeEnv) (is_flooded : ℕ → Bool)
    (dt_secs mtw : ℚ) (hillFlux : ℕ → ℚ) :
    ℕ → LoopSt → LoopSt × List SubstepRec × Bool
  | 0, st => (st, [], false)
  | Nat.succ fuel, st =>
    let p := substep c e is_flooded dt_secs mtw hillFlux st
    if p.2.brk then (p.1, [p.2], true)
    else
      let q := erodeLoop c e is_flooded dt_secs mtw hillFlux fuel p.1
      (q.1, p.2 :: q.2.1, q.2.2)

/-- The hillslope supply discharge `self._hillslope_sediment_flux_wzeros`:
zero away from cell-bearing nodes, and
`sediment depth * cell area / dt_secs` at them; computed once per call from
the pre-call sediment depths. -/
def hillslope_flux_wzeros (e : ErodeEnv) (dt_secs : ℚ) (n : ℕ) : ℚ :=
  if n ∈ e.nodeAtCell then e.hillslope_sediment n * e.area_of_cell n / dt_secs
  else 0

/-- The loop state on entry: pre-call elevations,
`elev_less_sed = node_z - self._hillslope_sediment`, the sediment depth
zero-filled (`self._hillslope_sediment.fill(0.)`), and
`downward_slopes = node_S.clip(np.spacing(0.))`. -/
def initLoopSt (e : ErodeEnv) : LoopSt :=
  { node_z := e.node_z
    elev_less_sed := fun n => e.node_z n - e.hillslope_sediment n
    hillslope_sed := fun _ => 0
    downward_slopes := fun n => max (e.node_S n) machineEps
    t_elapsed_internal := 0 }

/-- What one call to `erode` leaves behind: the updated elevation and
sediment-depth arrays, the three published diagnostic arrays (taken from
the final executed sub-step), the transport-limited classification
(`self._is_it_TL`), the list of executed sub-steps, and whether the loop
broke. -/
structure ErodeOut where
  node_z : ℕ → ℚ
  hillslope_sediment : ℕ → ℚ
  transport_capacities : ℕ → ℚ
  river_volume_flux_into_node : ℕ → ℚ
  rel_sed_flux : ℕ → ℚ
  is_it_TL : ℕ → Bool
  trace : List SubstepRec
  broke : Bool

/-- The body of `SedDepEroder.erode(dt, flooded_nodes)` after the
network-shape check, with `dt` in years and the flooded nodes as a boolean
mask. -/
def erode (c : SDEConfig) (e : ErodeEnv) (dt : ℚ) (is_flooded : ℕ → Bool)
    (fuel : ℕ) : ErodeOut :=
  let dt_secs := dt * secondsPerYear
  let res := erodeLoop c e is_flooded dt_secs (max_tstep_wave c e)
    (hillslope_flux_wzeros e dt_secs) fuel (initLoopSt e)
  { node_z := res.1.node_z
    hillslope_sediment := res.1.hillslope_sed
    transport_capacities :=
      ((res.2.1.getLast?).map (fun r => r.transport_capacities)).getD (fun _ => 0)
    river_volume_flux_into_node :=
      ((res.2.1.getLast?).map (fun r => r.out.river_in)).getD (fun _ => 0)
    rel_sed_flux :=
      ((res.2.1.getLast?).map (fun r => r.out.rel_sed_flux)).getD (fun _ => 0)
    is_it_TL :=
      ((res.2.1.getLast?).map (fun r => r.out.is_it_TL)).getD (fun _ => false)
    trace := res.2.1
    broke := res.2.2 }

/-- The `NotImplementedError` message of the route-to-multiple check. -/
def routeToMultipleMsg : String :=
  "A route-to-multiple flow director has been run on this grid. The " ++
  "landlab development team has not verified that SedDepEroder is " ++
  "compatible with route-to-multiple methods. Please open a GitHub " ++
  "Issue to start this process."

/-- `SedDepEroder.erode` including its leading network-shape check: the
very first statement compares the size of `flow__receiver_node` with the
node count and raises `NotImplementedError` before anything else runs;
only when the check passes does the mutating body execute. -/
def erodeExcept (c : SDEConfig) (e : ErodeEnv) (dt : ℚ)
    (is_flooded : ℕ → Bool) (fuel : ℕ) : Except String ErodeOut :=
  if e.receiverSize ≠ e.nnodes then Except.error routeToMultipleMsg
  else Except.ok (erode c e dt is_flooded fuel)

/-- The convenience composition used by claims about the whole call:
`substep` with the arguments `erode` passes to the loop. -/
def substepFull (c : SDEConfig) (e : ErodeEnv) (is_flooded : ℕ → Bool)
    (dt : ℚ) : LoopSt → LoopSt × SubstepRec :=
  substep c e is_flooded (dt * secondsPerYear) (max_tstep_wave c e)
    (hillslope_flux_wzeros e (dt * secondsPerYear))

/-- The state of the sub-step loop after `k` passes (iterating the state
component of `substepFull` from the entry state). -/
def iterSt (c : SDEConfig) (e : ErodeEnv) (is_flooded : ℕ → Bool) (dt : ℚ)
    (k : ℕ) : LoopSt :=
  (fun st => (substepFull c e is_flooded dt st).1)^[k] (initLoopSt e)

/-- `substepThis0` with the arguments `erode` passes to the loop: the time
the pass at state `st` consumes from `t_elapsed_internal`. -/
def erodeThis0 (c : SDEConfig) (e : ErodeEnv) (is_flooded : ℕ → Bool)
    (dt : ℚ) (st : LoopSt) : ℚ :=
  substepThis0 c e is_flooded (dt * secondsPerYear) (max_tstep_wave c e)
    (hillslope_flux_wzeros e (dt * secondsPerYear)) st

/-- Sum of the applied sub-step lengths of a trace. -/
def sumApplied (l : List SubstepRec) : ℚ :=
  (l.map (fun r => r.this_tstep)).sum

/-- The five node fields `erode` writes: elevation and sediment depth in
place, and the three diagnostics assigned at the end of the call. -/
def writtenFieldNames : List String :=
  ["topographic__elevation", "channel_sediment__depth",
   "channel_sediment__volumetric_transport_capacity",
   "channel_sediment__volumetric_discharge",
   "channel_sediment__relative_flux"]

/-- An `ErodeEnv` whose float-valued input fields are read out of a named
field store (`grid.at_node`), keeping the integer-valued topology inputs of
`base`. -/
def envOfStore (base : ErodeEnv) (store : String → ℕ → ℚ) : ErodeEnv :=
  { base with
    node_z := store "topographic__elevation"
    node_A := store "drainage_area"
    node_S := store "topographic__steepest_slope"
    hillslope_sediment := store "channel_sediment__depth" }

/-- One call to `erode` viewed as a transformation of the node field store:
the five written fields are replaced by the call's outputs, every other
field (in particular `channel__bed_shear_stress` and `channel__discharge`)
passes through untouched. -/
def erodeStore (c : SDEConfig) (base : ErodeEnv) (store : String → ℕ → ℚ)
    (dt : ℚ) (is_flooded : ℕ → Bool) (fuel : ℕ) : String → ℕ → ℚ :=
  let out := erode c (envOfStore base store) dt is_flooded fuel
  fun key =>
    if key = "topographic__elevation" then out.node_z
    else if key = "channel_sediment__depth" then out.hillslope_sediment
    else if key = "channel_sediment__volumetric_transport_capacity" then
      out.transport_capacities
    else if key = "channel_sediment__volumetric_discharge" then
      out.river_volume_flux_into_node
    else if key = "channel_sediment__relative_flux" then out.rel_sed_flux
    else store key

/-- A concrete three-node single-thread network used by the witnesses:
node 0 is the boundary outlet, node 1 a core node carrying the only cell,
node 2 a core, cell-less headwater; flow runs 2 → 1 → 0 and the processing
order is headwater-first. -/
def envW : ErodeEnv :=
  { nnodes := 3
    receiverSize := 3
    node_z := fun n => if n = 1 then 1 else if n = 2 then 2 else 0
    node_A := fun _ => 1
    flow_receiver := fun n => if n = 2 then 1 else 0
    s_in := [2, 1, 0]
    node_S := fun n => if n = 0 then 0 else 1 / 100
    steepest_link := fun n => if n = 1 then some 0 else if n = 2 then some 1 else none
    hillslope_sediment := fun _ => 7 / 10000
    coreNodes := [1, 2]
    nodeAtCell := [1]
    area_of_cell := fun _ => 10
    length_of_d8 := fun _ => 100 }

/-- A witness configuration: unit per-second erosion prefactor, zero
transport prefactor (so every core node is transport-limited), constant
response function. -/
def cfgW : SDEConfig :=
  { K_sp := 31557600
    m_sp := 1
    n_sp := 1
    K_t := 0
    m_t := 1
    n_t := 1
    sedFluxFn := sed_flux_fn_gen_const }

/-- A witness timestep: 10 seconds worth of years. -/
def dtW : ℚ := 10 / 31557600

/-- The no-flooding mask. -/
def floodedW : ℕ → Bool := fun _ => false

/-- The mask flooding node 1 only. -/
def floodedW1 : ℕ → Bool := fun n => decide (n = 1)

/-- `envW` with a receiver array of the wrong length, as left behind by a
route-to-multiple flow director. -/
def envWbad : ErodeEnv := { envW with receiverSize := 1 }

/-- The identity, used as a concrete unnormalised hump in witnesses. -/
def humpId : ℚ → ℚ := fun x => x

/-- A two-node network (boundary outlet 0, core cell-bearing node 1 draining
to it over a link of length 2) on which a call runs two sub-steps: the node
is detachment-limited in the first sub-step and transport-limited in the
second, final one. -/
def envX : ErodeEnv :=
  { nnodes := 2
    receiverSize := 2
    node_z := fun n => if n = 1 then 1 else 0
    node_A := fun _ => 1
    flow_receiver := fun _ => 0
    s_in := [1, 0]
    node_S := fun n => if n = 1 then 1 / 2 else 0
    steepest_link := fun n => if n = 1 then some 0 else none
    hillslope_sediment := fun _ => 1 / 5
    coreNodes := [1]
    nodeAtCell := [1]
    area_of_cell := fun _ => 1
    length_of_d8 := fun _ => 2 }

/-- Unit per-second erosion and transport prefactors, area exponents zero,
slope exponents one, constant response function. -/
def cfgX : SDEConfig :=
  { K_sp := 31557600
    m_sp := 0
    n_sp := 1
    K_t := 31557600
    m_t := 0
    n_t := 1
    sedFluxFn := sed_flux_fn_gen_const }

/-- A timestep of half a second. -/
def dtX : ℚ := 1 / 63115200

/-- The loop state after the first executed sub-step of the `envX` run. -/
def stX1 : LoopSt :=
  (substep cfgX envX floodedW (dtX * secondsPerYear) (max_tstep_wave cfgX envX)
    (hillslope_flux_wzeros envX (dtX * secondsPerYear)) (initLoopSt envX)).1

/-- A two-node network (boundary outlet 0, core cell-less node 1 one length
unit above it) for the Zeno run: no sediment, no cells, an input slope of 2
so that the wave bound never binds. -/
def envZ : ErodeEnv :=
  { nnodes := 2
    receiverSize := 2
    node_z := fun n => if n = 1 then 1 else 0
    node_A := fun _ => 1
    flow_receiver := fun _ => 0
    s_in := [1, 0]
    node_S := fun n => if n = 1 then 2 else 0
    steepest_link := fun n => if n = 1 then some 0 else none
    hillslope_sediment := fun _ => 0
    coreNodes := [1]
    nodeAtCell := []
    area_of_cell := fun _ => 1
    length_of_d8 := fun _ => 1 }

/-- Slope exponent zero in the erosion law (a value the component accepts),
so the erosion rate is slope-independent and the convergence criterion
governs every sub-step. -/
def cfgZ : SDEConfig :=
  { K_sp := 31557600
    m_sp := 0
    n_sp := 0
    K_t := 31557600
    m_t := 0
    n_t := 1
    sedFluxFn := sed_flux_fn_gen_const }

/-- A timestep of two seconds: more than the total time the Zeno run can
ever accumulate (one second). -/
def dtZ : ℚ := 2 / 31557600

/-- The invariant of the Zeno run on `envZ`: node 1 sits strictly above its
receiver with no loose sediment, the bedrock surface coincides with the
topography, the working slope is positive, and the elapsed time plus the
remaining gap never exceeds one second — so the `break` condition
`dt_secs = 2 ≤ t_elapsed_internal + this_tstep` can never fire. -/
def zenoInv (st : LoopSt) : Prop :=
  0 < st.node_z 1 ∧
  st.node_z 0 = 0 ∧
  st.elev_less_sed 1 = st.node_z 1 ∧
  st.hillslope_sed 1 = 0 ∧
  0 ≤ st.t_elapsed_internal ∧
  st.t_elapsed_internal + st.node_z 1 ≤ 1 ∧
  0 < st.downward_slopes 1

/- ------------------------------------------------------------------ -/
/- Projection lemmas: definitional views of `substep`, `erodeLoop` and
   `erode` used throughout the development. -/
/- ------------------------------------------------------------------ -/

theorem substep_fst_els (c : SDEConfig) (e : ErodeEnv) (fl : ℕ → Bool)
    (dt_secs mtw : ℚ) (hillFlux : ℕ → ℚ) (st : LoopSt) (n : ℕ) :
    (substep c e fl dt_secs mtw hillFlux st).1.elev_less_sed n =
      if n ∈ e.coreNodes then
        st.elev_less_sed n + (substepOut c e fl hillFlux st).dzbydt n *
          substepApplied c e fl dt_secs mtw hillFlux st
      else st.elev_less_sed n := rfl

theorem substep_fst_hill (c : SDEConfig) (e : ErodeEnv) (fl : ℕ → Bool)
    (dt_secs mtw : ℚ) (hillFlux : ℕ → ℚ) (st : LoopSt) (n : ℕ) :
    (substep c e fl dt_secs mtw hillFlux st).1.hillslope_sed n =
      if n ∈ e.nodeAtCell then
        (substepOut c e fl hillFlux st).voldroprate n / e.area_of_cell n *
          substepApplied c e fl dt_secs mtw hillFlux st
      else st.hillslope_sed n := rfl

theorem substep_fst_z (c : SDEConfig) (e : ErodeEnv) (fl : ℕ → Bool)
    (dt_secs mtw : ℚ) (hillFlux : ℕ → ℚ) (st : LoopSt) (n : ℕ) :
    (substep c e fl dt_secs mtw hillFlux st).1.node_z n =
      if n ∈ e.coreNodes then
        (substep c e fl dt_secs mtw hillFlux st).1.elev_less_sed n +
          (substep c e fl dt_secs mtw hillFlux st).1.hillslope_sed n
      else st.node_z n := rfl

theorem substep_fst_elapsed (c : SDEConfig) (e : ErodeEnv) (fl : ℕ → Bool)
    (dt_secs mtw : ℚ) (hillFlux : ℕ → ℚ) (st : LoopSt) :
    (substep c e fl dt_secs mtw hillFlux st).1.t_elapsed_internal =
      st.t_elapsed_internal + substepThis0 c e fl dt_secs mtw hillFlux st := rfl

theorem substep_snd_out (c : SDEConfig) (e : ErodeEnv) (fl : ℕ → Bool)
    (dt_secs mtw : ℚ) (hillFlux : ℕ → ℚ) (st : LoopSt) :
    (substep c e fl dt_secs mtw hillFlux st).2.out =
      substepOut c e fl hillFlux st := rfl

theorem substep_snd_brk (c : SDEConfig) (e : ErodeEnv) (fl : ℕ → Bool)
    (dt_secs mtw : ℚ) (hillFlux : ℕ → ℚ) (st : LoopSt) :
    (substep c e fl dt_secs mtw hillFlux st).2.brk =
      decide (dt_secs ≤ st.t_elapsed_internal +
        substepThis0 c e fl dt_secs mtw hillFlux st) := rfl

theorem substep_snd_tstep (c : SDEConfig) (e : ErodeEnv) (fl : ℕ → Bool)
    (dt_secs mtw : ℚ) (hillFlux : ℕ → ℚ) (st : LoopSt) :
    (substep c e fl dt_secs mtw hillFlux st).2.this_tstep =
      substepApplied c e fl dt_secs mtw hillFlux st := rfl

theorem erode_trace (c : SDEConfig) (e : ErodeEnv) (dt : ℚ) (fl : ℕ → Bool)
    (fuel : ℕ) :
    (erode c e dt fl fuel).trace =
      (erodeLoop c e fl (dt * secondsPerYear) (max_tstep_wave c e)
        (hillslope_flux_wzeros e (dt * secondsPerYear)) fuel (initLoopSt e)).2.1 := rfl

theorem erode_broke (c : SDEConfig) (e : ErodeEnv) (dt : ℚ) (fl : ℕ → Bool)
    (fuel : ℕ) :
    (erode c e dt fl fuel).broke =
      (erodeLoop c e fl (dt * secondsPerYear) (max_tstep_wave c e)
        (hillslope_flux_wzeros e (dt * secondsPerYear)) fuel (initLoopSt e)).2.2 := rfl

theorem erode_z (c : SDEConfig) (e : ErodeEnv) (dt : ℚ) (fl : ℕ → Bool)
    (fuel : ℕ) :
    (erode c e dt fl fuel).node_z =
      (erodeLoop c e fl (dt * secondsPerYear) (max_tstep_wave c e)
        (hillslope_flux_wzeros e (dt * secondsPerYear)) fuel (initLoopSt e)).1.node_z := rfl

theorem erode_hillsed (c : SDEConfig) (e : ErodeEnv) (dt : ℚ) (fl : ℕ → Bool)
    (fuel : ℕ) :
    (erode c e dt fl fuel).hillslope_sediment =
      (erodeLoop c e fl (dt * secondsPerYear) (max_tstep_wave c e)
        (hillslope_flux_wzeros e (dt * secondsPerYear)) fuel (initLoopSt e)).1.hillslope_sed := rfl

/- ------------------------------------------------------------------ -/
/- Generic list helpers. -/
/- ------------------------------------------------------------------ -/

theorem list_filterMap_if {α β : Type} (f : α → Option β) (p : α → Bool)
    (g : α → β) :
    ∀ l : List α, (∀ a ∈ l, f a = if p a then some (g a) else none) →
      l.filterMap f = (l.filter p).map g := by
  intro l
  induction l with
  | nil => intro _; rfl
  | cons a l ih =>
    intro h
    have ha := h a (List.mem_cons_self a l)
    have hl := fun b hb => h b (List.mem_cons_of_mem a hb)
    by_cases hp : p a = true
    · rw [List.filterMap_cons, ha, if_pos hp, List.filter_cons, if_pos hp,
        List.map_cons, ih hl]
    · rw [List.filterMap_cons, ha, if_neg hp, List.filter_cons, if_neg hp,
        ih hl]

theorem foldl_max_init_le (l : List ℚ) : ∀ a : ℚ, a ≤ l.foldl max a := by
  induction l with
  | nil => intro a; exact le_refl a
  | cons y t ih =>
    intro a
    rw [List.foldl_cons]
    exact le_trans (le_max_left a y) (ih _)

theorem mem_le_foldl_max (l : List ℚ) :
    ∀ (a x : ℚ), x ∈ l → x ≤ l.foldl max a := by
  induction l with
  | nil => intro a x hx; exact absurd hx (List.not_mem_nil x)
  | cons y t ih =>
    intro a x hx
    rw [List.foldl_cons]
    rcases List.mem_cons.mp hx with h | h
    · subst h; exact le_trans (le_max_right a x) (foldl_max_init_le t _)
    · exact ih _ x h

theorem foldl_max_mem_or (l : List ℚ) :
    ∀ a : ℚ, l.foldl max a = a ∨ l.foldl max a ∈ l := by
  induction l with
  | nil => intro a; exact Or.inl rfl
  | cons y t ih =>
    intro a
    rw [List.foldl_cons]
    rcases ih (max a y) with h | h
    · rw [h]
      rcases le_total a y with hy | hy
      · exact Or.inr (by rw [max_eq_right hy]; exact List.mem_cons_self y t)
      · exact Or.inl (max_eq_left hy)
    · exact Or.inr (List.mem_cons_of_mem y h)

/- ------------------------------------------------------------------ -/
/- The wave-stability bound (claim C3). -/
/- ------------------------------------------------------------------ -/

theorem waveRatios_eq (c : SDEConfig) (e : ErodeEnv) :
    waveRatios c e = (coreDrainingNodes e).map
      (fun n => linkLenQ e n / wave_stab_cond_denominator c e n) := by
  rw [waveRatios]
  exact list_filterMap_if
    (fun n => (link_length e n).map (fun L => L / wave_stab_cond_denominator c e n))
    (fun n => (e.steepest_link n).isSome && decide (n ∈ e.coreNodes))
    (fun n => linkLenQ e n / wave_stab_cond_denominator c e n)
    (List.range e.nnodes)
    (by
      intro a ha
      simp only [link_length]
      by_cases hb : ((e.steepest_link a).isSome && decide (a ∈ e.coreNodes)) = true
      · have hm : a ∈ coreDrainingNodes e := List.mem_filter.mpr ⟨ha, hb⟩
        rw [if_pos hm, if_pos hb]
        rfl
      · have hm : a ∉ coreDrainingNodes e := fun hmem =>
          hb (List.mem_filter.mp hmem).2
        rw [if_neg hm, if_neg hb]
        rfl)

/-- C3: with the power-law transport law, the wave stability bound computed
by `erode` equals 0.2 times the minimum, over exactly the core draining
nodes (the NaN link-length entries being excluded by `nanmin`), of the
node's downslope link length divided by `K * A^m_sp` when n_sp is close to
1, and divided by `K * A^m_sp * S^(n_sp - 1)` otherwise, the slope having
been floored to machine epsilon before the division (`K` being the
per-second prefactor `K_sp / 31557600`). -/
theorem C3_wave_bound (c : SDEConfig) (e : ErodeEnv)
    (hne : coreDrainingNodes e ≠ []) :
    max_tstep_wave c e =
      (1 / 5) * listMin ((coreDrainingNodes e).map (fun n =>
        linkLenQ e n /
          (if iscloseOne (c.n_sp : ℚ) then
            c.K_sp / 31557600 * e.node_A n ^ c.m_sp
          else
            c.K_sp / 31557600 * e.node_A n ^ c.m_sp *
              max (e.node_S n) machineEps ^ (c.n_sp - 1)))) := by
  have _ := hne
  rw [max_tstep_wave, waveRatios_eq]
  rfl

/-- Witness for C3 at the concrete three-node network (both core nodes
drain, the boundary node carries the NaN entry). -/
theorem C3_wave_bound_witness :
    max_tstep_wave cfgW envW =
      (1 / 5) * listMin ((coreDrainingNodes envW).map (fun n =>
        linkLenQ envW n /
          (if iscloseOne (cfgW.n_sp : ℚ) then
            cfgW.K_sp / 31557600 * envW.node_A n ^ cfgW.m_sp
          else
            cfgW.K_sp / 31557600 * envW.node_A n ^ cfgW.m_sp *
              max (envW.node_S n) machineEps ^ (cfgW.n_sp - 1)))) :=
  C3_wave_bound cfgW envW (by decide)

/- ------------------------------------------------------------------ -/
/- The convergence-criterion fallback (claim C4). -/
/- ------------------------------------------------------------------ -/

theorem tconv_of_no_pairs (nnodes : ℕ) (dzbydt z : ℕ → ℚ) (recv : ℕ → ℕ)
    (dt_secs : ℚ)
    (hq : convergingPairs nnodes dzbydt z recv = []) :
    t_to_converge_preWave nnodes dzbydt z recv dt_secs =
      conv_factor * dt_secs := by
  rw [t_to_converge_preWave, if_pos hq]

theorem convergingPairs_of_dz_zero (nnodes : ℕ) (dzbydt z : ℕ → ℚ)
    (recv : ℕ → ℕ) (hdz : ∀ n, dzbydt n = 0) :
    convergingPairs nnodes dzbydt z recv = [] := by
  rw [convergingPairs]
  rw [List.filter_eq_nil_iff]
  intro a _
  simp [hdz]

/-- C4 counterexample: at a concrete state in which no (node, receiver)
pair converges (all rates equal) and with a full timestep of 1 second, the
candidate sub-step before the minimum with the wave bound is 3/10 and not 1
(the full remaining time of the outer timestep at the first sub-step): the
claim that the criterion then "imposes no bound" is false on the code,
because `t_to_converge *= conv_factor` is applied to the fallback too. -/
theorem C4_fallback_counterexample :
    convergingPairs 2 (fun _ => 0) (fun n => (n : ℚ)) (fun _ => 0) = [] ∧
    t_to_converge_preWave 2 (fun _ => 0) (fun n => (n : ℚ)) (fun _ => 0) 1 =
      3 / 10 ∧
    (3 / 10 : ℚ) ≠ 1 := by
  have hq := convergingPairs_of_dz_zero 2 (fun _ => 0) (fun n => (n : ℚ))
    (fun _ => 0) (fun _ => rfl)
  refine ⟨hq, ?_, by norm_num⟩
  rw [tconv_of_no_pairs 2 (fun _ => 0) (fun n => (n : ℚ)) (fun _ => 0) 1 hq]
  norm_num [conv_factor]

/-- C4 as amended: when no (node, receiver) pair has both the node's rate
of change exceeding its receiver's and the node above its receiver, the
candidate sub-step (before the minimum with the wave bound) is
`conv_factor` (0.3) times the full outer `dt_secs` — the safety factor is
applied to the fallback as well, and the fallback is the full outer
timestep rather than its remaining part. -/
theorem C4_fallback_scaled (nnodes : ℕ) (dzbydt z : ℕ → ℚ) (recv : ℕ → ℕ)
    (dt_secs : ℚ)
    (hq : convergingPairs nnodes dzbydt z recv = []) :
    t_to_converge_preWave nnodes dzbydt z recv dt_secs =
      conv_factor * dt_secs :=
  tconv_of_no_pairs nnodes dzbydt z recv dt_secs hq

/-- Witness for the amended C4 at a concrete no-converging-pair state. -/
theorem C4_fallback_scaled_witness :
    t_to_converge_preWave 3 (fun _ => 0) (fun n => (n : ℚ)) (fun _ => 0) 5 =
      conv_factor * 5 :=
  C4_fallback_scaled 3 (fun _ => 0) (fun n => (n : ℚ)) (fun _ => 0) 5
    (convergingPairs_of_dz_zero 3 (fun _ => 0) (fun n => (n : ℚ)) (fun _ => 0)
      (fun _ => rfl))

/- ------------------------------------------------------------------ -/
/- The leading network-shape check (claim C7). -/
/- ------------------------------------------------------------------ -/

/-- C7: the network-shape check is the first thing `erode` runs: when the
`flow__receiver_node` array's size differs from the node count, the call
raises `NotImplementedError` with the route-to-multiple message, before
the state-mutating body (modelled by `erode`) executes at all. -/
theorem C7_shape_check_first (c : SDEConfig) (e : ErodeEnv) (dt : ℚ)
    (fl : ℕ → Bool) (fuel : ℕ)
    (h : e.receiverSize ≠ e.nnodes) :
    erodeExcept c e dt fl fuel = Except.error routeToMultipleMsg := by
  rw [erodeExcept, if_pos h]

/-- Witness for C7 on a mis-sized receiver array. -/
theorem C7_shape_check_first_witness :
    erodeExcept cfgW envWbad dtW floodedW 1 = Except.error routeToMultipleMsg :=
  C7_shape_check_first cfgW envWbad dtW floodedW 1 (by decide)

/- ------------------------------------------------------------------ -/
/- The field frame of `erode` (claim C9). -/
/- ------------------------------------------------------------------ -/

/-- C9: `erode` writes exactly the five node fields of
`writtenFieldNames` (elevation, sediment depth, transport capacity,
volumetric discharge, relative flux); any other field of the store — in
particular the declared output `channel__bed_shear_stress`, which the body
never computes or assigns — passes through the call untouched, so it keeps
its initialized zero-filled value. -/
theorem C9_field_frame (c : SDEConfig) (base : ErodeEnv)
    (store : String → ℕ → ℚ) (dt : ℚ) (fl : ℕ → Bool) (fuel : ℕ)
    (key : String) (hk : key ∉ writtenFieldNames) :
    erodeStore c base store dt fl fuel key = store key := by
  rw [writtenFieldNames] at hk
  simp only [List.mem_cons, List.not_mem_nil, or_false, not_or] at hk
  obtain ⟨h1, h2, h3, h4, h5⟩ := hk
  rw [erodeStore]
  simp only [h1, h2, h3, h4, h5, if_false]

/-- Witness for C9: a call leaves `channel__bed_shear_stress` exactly as
the store held it. -/
theorem C9_field_frame_witness :
    erodeStore cfgW envW (fun _ _ => 0) dtW floodedW 1
        "channel__bed_shear_stress" =
      (fun _ _ => (0 : ℚ)) "channel__bed_shear_stress" :=
  C9_field_frame cfgW envW (fun _ _ => 0) dtW floodedW 1
    "channel__bed_shear_stress" (by decide)

/- ------------------------------------------------------------------ -/
/- Sediment depth at cell-less nodes (claim C10). -/
/- ------------------------------------------------------------------ -/

theorem erodeLoop_succ_brk (c : SDEConfig) (e : ErodeEnv) (fl : ℕ → Bool)
    (dt_secs mtw : ℚ) (hillFlux : ℕ → ℚ) (fuel : ℕ) (st : LoopSt)
    (hb : (substep c e fl dt_secs mtw hillFlux st).2.brk = true) :
    erodeLoop c e fl dt_secs mtw hillFlux (fuel + 1) st =
      ((substep c e fl dt_secs mtw hillFlux st).1,
       [(substep c e fl dt_secs mtw hillFlux st).2], true) := by
  show (if (substep c e fl dt_secs mtw hillFlux st).2.brk = true then _ else _) = _
  rw [if_pos hb]

theorem erodeLoop_succ_nobrk (c : SDEConfig) (e : ErodeEnv) (fl : ℕ → Bool)
    (dt_secs mtw : ℚ) (hillFlux : ℕ → ℚ) (fuel : ℕ) (st : LoopSt)
    (hb : (substep c e fl dt_secs mtw hillFlux st).2.brk = false) :
    erodeLoop c e fl dt_secs mtw hillFlux (fuel + 1) st =
      ((erodeLoop c e fl dt_secs mtw hillFlux fuel
          (substep c e fl dt_secs mtw hillFlux st).1).1,
       (substep c e fl dt_secs mtw hillFlux st).2 ::
         (erodeLoop c e fl dt_secs mtw hillFlux fuel
           (substep c e fl dt_secs mtw hillFlux st).1).2.1,
       (erodeLoop c e fl dt_secs mtw hillFlux fuel
         (substep c e fl dt_secs mtw hillFlux st).1).2.2) := by
  show (if (substep c e fl dt_secs mtw hillFlux st).2.brk = true then _ else _) = _
  rw [if_neg (by rw [hb]; exact Bool.false_ne_true)]

theorem erodeLoop_hillsed_const (c : SDEConfig) (e : ErodeEnv)
    (fl : ℕ → Bool) (dt_secs mtw : ℚ) (hillFlux : ℕ → ℚ) (n : ℕ)
    (hc : n ∉ e.nodeAtCell) :
    ∀ (fuel : ℕ) (st : LoopSt),
      (erodeLoop c e fl dt_secs mtw hillFlux fuel st).1.hillslope_sed n =
        st.hillslope_sed n := by
  intro fuel
  induction fuel with
  | zero => intro st; rfl
  | succ fuel ih =>
    intro st
    by_cases hb : (substep c e fl dt_secs mtw hillFlux st).2.brk = true
    · rw [erodeLoop_succ_brk c e fl dt_secs mtw hillFlux fuel st hb]
      rw [substep_fst_hill, if_neg hc]
    · rw [erodeLoop_succ_nobrk c e fl dt_secs mtw hillFlux fuel st
        (Bool.not_eq_true _ ▸ hb)]
      rw [ih]
      rw [substep_fst_hill, if_neg hc]

/-- C10: every call to `erode` zero-fills the persistent
`channel_sediment__depth` array mid-call and rebuilds it only at
cell-bearing nodes, so whatever sediment depth a cell-less node (e.g. a
boundary node) held before the call, the call leaves exactly zero there. -/
theorem C10_cellless_sediment_zeroed (c : SDEConfig) (e : ErodeEnv)
    (dt : ℚ) (fl : ℕ → Bool) (fuel : ℕ) (n : ℕ)
    (hc : n ∉ e.nodeAtCell) :
    (erode c e dt fl fuel).hillslope_sediment n = 0 := by
  rw [erode_hillsed, erodeLoop_hillsed_const c e fl _ _ _ n hc]
  rfl

/-- Witness for C10: the cell-less core node 2 enters the call with
sediment depth 0.0007 and leaves it with exactly 0. -/
theorem C10_cellless_sediment_zeroed_witness :
    (erode cfgW envW dtW floodedW 5).hillslope_sediment 2 = 0 :=
  C10_cellless_sediment_zeroed cfgW envW dtW floodedW 5 2 (by decide)

/- ------------------------------------------------------------------ -/
/- The generalized-humped normalization (claim C8). -/
/- ------------------------------------------------------------------ -/

theorem genhumpMaxVal_eq (hump : ℚ → ℚ) :
    genhumpMaxVal hump = (humpSample.map hump).foldl max 0 := by
  rw [genhumpMaxVal, List.foldl_map]
  congr 1
  funext m x
  exact max_comm (hump x) m

/-- C8: when the sampled maximum found by the `set_sed_flux_fn_gen` loop is
positive, the maximum is attained at some sample point `x`, the stored
normalization constant is exactly the reciprocal of that sampled maximum,
and the normalized function (`hump` rescaled by the stored constant) has
maximum exactly 1 over the same dense sample: it is bounded by 1 at every
sample point and attains 1 at `x`. -/
theorem C8_genhump_normalization (hump : ℚ → ℚ)
    (h : 0 < genhumpMaxVal hump) :
    (∃ x ∈ humpSample, genhumpNorm hump = (hump x)⁻¹ ∧
      ∀ y ∈ humpSample, hump y ≤ hump x) ∧
    (∀ y ∈ humpSample, hump y * genhumpNorm hump ≤ 1) ∧
    (∃ x ∈ humpSample, hump x * genhumpNorm hump = 1) := by
  have hM := genhumpMaxVal_eq hump
  rcases foldl_max_mem_or (humpSample.map hump) 0 with h0 | hmem
  · rw [hM, h0] at h
    exact absurd h (lt_irrefl 0)
  · rw [← hM] at hmem
    obtain ⟨x, hx, hxe⟩ := List.mem_map.mp hmem
    have hub : ∀ y ∈ humpSample, hump y ≤ genhumpMaxVal hump := by
      intro y hy
      rw [hM]
      exact mem_le_foldl_max _ _ _ (List.mem_map_of_mem hump hy)
    have hMne : genhumpMaxVal hump ≠ 0 := ne_of_gt h
    refine ⟨⟨x, hx, ?_, ?_⟩, ?_, ⟨x, hx, ?_⟩⟩
    · rw [genhumpNorm, hxe, one_div]
    · intro y hy
      rw [hxe]
      exact hub y hy
    · intro y hy
      rw [genhumpNorm, mul_one_div]
      exact (div_le_one h).mpr (hub y hy)
    · rw [genhumpNorm, mul_one_div, hxe]
      exact div_self hMne

set_option maxRecDepth 4000 in
/-- Witness for C8: the identity hump has positive sampled maximum (it is 1
at the sample point 1), so the theorem applies to it. -/
theorem C8_genhump_normalization_witness :
    0 < genhumpMaxVal humpId ∧
    ((∃ x ∈ humpSample, genhumpNorm humpId = (humpId x)⁻¹ ∧
       ∀ y ∈ humpSample, humpId y ≤ humpId x) ∧
     (∀ y ∈ humpSample, humpId y * genhumpNorm humpId ≤ 1) ∧
     (∃ x ∈ humpSample, humpId x * genhumpNorm humpId = 1)) := by
  have hmem1 : (1 : ℚ) ∈ humpSample := by
    rw [humpSample]
    exact (@List.mem_map ℕ ℚ 1 (fun k => (k : ℚ) / 1000) (List.range 1001)).mpr
      ⟨1000, List.mem_range.mpr (by norm_num : (1000 : ℕ) < 1001), by norm_num⟩
  have hpos : 0 < genhumpMaxVal humpId := by
    have h1 : (1 : ℚ) ≤ genhumpMaxVal humpId := by
      rw [genhumpMaxVal_eq]
      have : humpId 1 ∈ humpSample.map humpId := List.mem_map_of_mem humpId hmem1
      exact mem_le_foldl_max _ _ _ this
    linarith
  exact ⟨hpos, C8_genhump_normalization humpId hpos⟩

/- ------------------------------------------------------------------ -/
/- Kernel fold lemmas (shared by claims C1 and C2). -/
/- ------------------------------------------------------------------ -/

theorem processNode_skip (core : List ℕ) (hf Qc Ep : ℕ → ℚ) (recv : ℕ → ℕ)
    (f : ℚ → ℚ) (acc : KernelAcc) (m : ℕ) (hm : m ∉ core) :
    processNode core hf Qc Ep recv f acc m = acc := by
  rw [processNode, if_neg hm]

theorem processNode_core_eq (core : List ℕ) (hf Qc Ep : ℕ → ℚ) (recv : ℕ → ℕ)
    (f : ℚ → ℚ) (acc : KernelAcc) (m : ℕ) (hm : m ∈ core) :
    processNode core hf Qc Ep recv f acc m =
      (if hf m + acc.river_in m < Qc m then
        { acc with
          dzbydt := upd acc.dzbydt m
            (-(Ep m * f ((hf m + acc.river_in m) / Qc m)))
          rel_sed_flux := upd acc.rel_sed_flux m ((hf m + acc.river_in m) / Qc m)
          river_in := upd acc.river_in (recv m)
            (acc.river_in (recv m) + (hf m + acc.river_in m)) }
      else
        { acc with
          is_it_TL := fun j => if j = m then true else acc.is_it_TL j
          dzbydt := upd acc.dzbydt m 0
          voldroprate := upd acc.voldroprate m (hf m + acc.river_in m - Qc m)
          rel_sed_flux := upd acc.rel_sed_flux m ((hf m + acc.river_in m) / Qc m)
          river_in := upd acc.river_in (recv m)
            (acc.river_in (recv m) + Qc m) }) := by
  rw [processNode, if_pos hm]

theorem processNode_own (core : List ℕ) (hf Qc Ep : ℕ → ℚ) (recv : ℕ → ℕ)
    (f : ℚ → ℚ) (acc : KernelAcc) (m n : ℕ) (hmn : m ≠ n) :
    (processNode core hf Qc Ep recv f acc m).dzbydt n = acc.dzbydt n ∧
    (processNode core hf Qc Ep recv f acc m).is_it_TL n = acc.is_it_TL n ∧
    (processNode core hf Qc Ep recv f acc m).voldroprate n =
      acc.voldroprate n := by
  have hnm : ¬(n = m) := fun h => hmn h.symm
  by_cases hm : m ∈ core
  · rw [processNode_core_eq core hf Qc Ep recv f acc m hm]
    split_ifs with hq
    · exact ⟨by simp [upd, hnm], rfl, rfl⟩
    · exact ⟨by simp [upd, hnm], by simp [hnm], by simp [upd, hnm]⟩
  · rw [processNode_skip core hf Qc Ep recv f acc m hm]
    exact ⟨rfl, rfl, rfl⟩

theorem processNode_river_ne (core : List ℕ) (hf Qc Ep : ℕ → ℚ)
    (recv : ℕ → ℕ) (f : ℚ → ℚ) (acc : KernelAcc) (m n : ℕ)
    (hn : n ≠ recv m) :
    (processNode core hf Qc Ep recv f acc m).river_in n = acc.river_in n := by
  by_cases hm : m ∈ core
  · rw [processNode_core_eq core hf Qc Ep recv f acc m hm]
    split_ifs with hq
    · simp [upd, hn]
    · simp [upd, hn]
  · rw [processNode_skip core hf Qc Ep recv f acc m hm]

theorem processNode_river_nonneg (core : List ℕ) (hf Qc Ep : ℕ → ℚ)
    (recv : ℕ → ℕ) (f : ℚ → ℚ) (acc : KernelAcc) (m : ℕ)
    (hacc : ∀ j, 0 ≤ acc.river_in j) (hhf : 0 ≤ hf m) (hQc : 0 ≤ Qc m) :
    ∀ j, 0 ≤ (processNode core hf Qc Ep recv f acc m).river_in j := by
  intro j
  by_cases hm : m ∈ core
  · rw [processNode_core_eq core hf Qc Ep recv f acc m hm]
    split_ifs with hq
    · show 0 ≤ upd acc.river_in (recv m)
        (acc.river_in (recv m) + (hf m + acc.river_in m)) j
      rw [upd]
      split_ifs with hj
      · have h1 := hacc (recv m)
        have h2 := hacc m
        linarith
      · exact hacc j
    · show 0 ≤ upd acc.river_in (recv m) (acc.river_in (recv m) + Qc m) j
      rw [upd]
      split_ifs with hj
      · have h1 := hacc (recv m)
        linarith
      · exact hacc j
  · rw [processNode_skip core hf Qc Ep recv f acc m hm]
    exact hacc j

theorem foldl_own (core : List ℕ) (hf Qc Ep : ℕ → ℚ) (recv : ℕ → ℕ)
    (f : ℚ → ℚ) (n : ℕ) :
    ∀ (l : List ℕ) (acc : KernelAcc), n ∉ l →
      (l.foldl (processNode core hf Qc Ep recv f) acc).dzbydt n =
        acc.dzbydt n ∧
      (l.foldl (processNode core hf Qc Ep recv f) acc).is_it_TL n =
        acc.is_it_TL n ∧
      (l.foldl (processNode core hf Qc Ep recv f) acc).voldroprate n =
        acc.voldroprate n := by
  intro l
  induction l with
  | nil => intro acc _; exact ⟨rfl, rfl, rfl⟩
  | cons m t ih =>
    intro acc hn
    have hmn : m ≠ n := fun h => hn (by rw [← h]; exact List.mem_cons_self m t)
    have hnt : n ∉ t := fun h => hn (List.mem_cons_of_mem m h)
    rw [List.foldl_cons]
    have h1 := processNode_own core hf Qc Ep recv f acc m n hmn
    have h2 := ih (processNode core hf Qc Ep recv f acc m) hnt
    exact ⟨h2.1.trans h1.1, h2.2.1.trans h1.2.1, h2.2.2.trans h1.2.2⟩

theorem foldl_river_ne (core : List ℕ) (hf Qc Ep : ℕ → ℚ) (recv : ℕ → ℕ)
    (f : ℚ → ℚ) (n : ℕ) :
    ∀ (l : List ℕ) (acc : KernelAcc), (∀ m ∈ l, n ≠ recv m) →
      (l.foldl (processNode core hf Qc Ep recv f) acc).river_in n =
        acc.river_in n := by
  intro l
  induction l with
  | nil => intro acc _; rfl
  | cons m t ih =>
    intro acc h
    rw [List.foldl_cons,
      ih _ (fun x hx => h x (List.mem_cons_of_mem m hx)),
      processNode_river_ne core hf Qc Ep recv f acc m n
        (h m (List.mem_cons_self m t))]

theorem foldl_river_nonneg (core : List ℕ) (hf Qc Ep : ℕ → ℚ)
    (recv : ℕ → ℕ) (f : ℚ → ℚ)
    (hhf : ∀ m, 0 ≤ hf m) (hQc : ∀ m, 0 ≤ Qc m) :
    ∀ (l : List ℕ) (acc : KernelAcc), (∀ j, 0 ≤ acc.river_in j) →
      ∀ j, 0 ≤ (l.foldl (processNode core hf Qc Ep recv f) acc).river_in j := by
  intro l
  induction l with
  | nil => intro acc hacc; exact hacc
  | cons m t ih =>
    intro acc hacc
    rw [List.foldl_cons]
    exact ih _
      (processNode_river_nonneg core hf Qc Ep recv f acc m hacc (hhf m) (hQc m))

theorem processNode_TL (core : List ℕ) (hf Qc Ep : ℕ → ℚ) (recv : ℕ → ℕ)
    (f : ℚ → ℚ) (acc : KernelAcc) (n : ℕ)
    (hc : n ∈ core) (hq : ¬(hf n + acc.river_in n < Qc n)) :
    processNode core hf Qc Ep recv f acc n =
      { acc with
        is_it_TL := fun j => if j = n then true else acc.is_it_TL j
        dzbydt := upd acc.dzbydt n 0
        voldroprate := upd acc.voldroprate n (hf n + acc.river_in n - Qc n)
        rel_sed_flux := upd acc.rel_sed_flux n ((hf n + acc.river_in n) / Qc n)
        river_in := upd acc.river_in (recv n) (acc.river_in (recv n) + Qc n) } := by
  rw [processNode_core_eq core hf Qc Ep recv f acc n hc, if_neg hq]

theorem processNode_capzero_river (core : List ℕ) (hf Qc Ep : ℕ → ℚ)
    (recv : ℕ → ℕ) (f : ℚ → ℚ) (acc : KernelAcc) (n : ℕ)
    (hQc0 : Qc n = 0) (hQs : 0 ≤ hf n + acc.river_in n) :
    (processNode core hf Qc Ep recv f acc n).river_in = acc.river_in := by
  by_cases hc : n ∈ core
  · rw [processNode_TL core hf Qc Ep recv f acc n hc
      (by rw [hQc0]; exact not_lt.mpr hQs)]
    funext j
    show upd acc.river_in (recv n) (acc.river_in (recv n) + Qc n) j =
      acc.river_in j
    rw [upd, hQc0, add_zero]
    split_ifs with hj
    · rw [hj]
    · rfl
  · rw [processNode_skip core hf Qc Ep recv f acc n hc]

theorem isTL_dz_zero (core : List ℕ) (hf Qc Ep : ℕ → ℚ) (recv : ℕ → ℕ)
    (f : ℚ → ℚ) (order : List ℕ) (hnd : order.Nodup) (n : ℕ)
    (h : (order.foldl (processNode core hf Qc Ep recv f)
      kernelInit).is_it_TL n = true) :
    (order.foldl (processNode core hf Qc Ep recv f) kernelInit).dzbydt n = 0 := by
  by_cases hm : n ∈ order
  · obtain ⟨pre, post, hsplit⟩ := List.append_of_mem hm
    subst hsplit
    rw [List.nodup_append] at hnd
    obtain ⟨hpre, hcons, hdisj⟩ := hnd
    have hnpre : n ∉ pre := fun hx => hdisj hx (List.mem_cons_self n post)
    have hnpost : n ∉ post := (List.nodup_cons.mp hcons).1
    rw [List.foldl_append, List.foldl_cons] at h ⊢
    set accPre := pre.foldl (processNode core hf Qc Ep recv f) kernelInit
      with hap
    have hown := foldl_own core hf Qc Ep recv f n pre kernelInit hnpre
    by_cases hc : n ∈ core
    · by_cases hq : hf n + accPre.river_in n < Qc n
      · exfalso
        have hstep : (processNode core hf Qc Ep recv f accPre n).is_it_TL n =
            accPre.is_it_TL n := by
          rw [processNode_core_eq core hf Qc Ep recv f accPre n hc, if_pos hq]
        have hpost' := foldl_own core hf Qc Ep recv f n post
          (processNode core hf Qc Ep recv f accPre n) hnpost
        rw [hpost'.2.1, hstep, hap, hown.2.1] at h
        simp [kernelInit] at h
      · have hstep : (processNode core hf Qc Ep recv f accPre n).dzbydt n = 0 := by
          rw [processNode_TL core hf Qc Ep recv f accPre n hc hq]
          show upd accPre.dzbydt n 0 n = 0
          rw [upd, if_pos rfl]
        have hpost' := foldl_own core hf Qc Ep recv f n post
          (processNode core hf Qc Ep recv f accPre n) hnpost
        rw [hpost'.1, hstep]
    · exfalso
      rw [processNode_skip core hf Qc Ep recv f accPre n hc] at h
      have hpost' := foldl_own core hf Qc Ep recv f n post accPre hnpost
      rw [hpost'.2.1, hap, hown.2.1] at h
      simp [kernelInit] at h
  · have hown := foldl_own core hf Qc Ep recv f n order kernelInit hm
    rw [hown.2.1] at h
    simp [kernelInit] at h

theorem substepCaps_flooded (c : SDEConfig) (e : ErodeEnv) (fl : ℕ → Bool)
    (st : LoopSt) (n : ℕ) (hfl : fl n = true) :
    substepCaps c e fl st n = 0 := by
  rw [substepCaps, if_pos hfl, mul_zero]

/-- C2: during any sub-step of `erode`, at a node `n` flagged flooded (and
reached by the kernel, i.e. a core node appearing in the processing order
after all of its contributors): the transport capacity is forced to exactly
zero, the node is classified transport-limited, its bedrock erosion rate is
exactly zero, its recorded volumetric deposition rate equals the entire
sediment discharge arriving at it (hillslope supply plus everything
delivered from upstream), and its own processing step leaves every
downstream accumulator unchanged — nothing is forwarded to its receiver in
that sub-step. -/
theorem C2_flooded_perfect_trap (c : SDEConfig) (e : ErodeEnv) (fl : ℕ → Bool)
    (hillFlux : ℕ → ℚ) (st : LoopSt) (n : ℕ) (pre post : List ℕ)
    (hn : n ∈ e.coreNodes) (hfl : fl n = true)
    (hsplit : e.s_in = pre ++ n :: post)
    (hpost : n ∉ post)
    (hrecv : ∀ m ∈ post, e.flow_receiver m ≠ n)
    (hhf : ∀ m, 0 ≤ hillFlux m)
    (hcap : ∀ m, 0 ≤ substepCaps c e fl st m) :
    substepCaps c e fl st n = 0 ∧
    (substepOut c e fl hillFlux st).is_it_TL n = true ∧
    (substepOut c e fl hillFlux st).dzbydt n = 0 ∧
    (substepOut c e fl hillFlux st).voldroprate n =
      hillFlux n + (substepOut c e fl hillFlux st).river_in n ∧
    (processNode e.coreNodes hillFlux (substepCaps c e fl st)
        (substepEpref c e fl st) e.flow_receiver c.sedFluxFn
        (pre.foldl (processNode e.coreNodes hillFlux (substepCaps c e fl st)
          (substepEpref c e fl st) e.flow_receiver c.sedFluxFn) kernelInit)
        n).river_in =
      (pre.foldl (processNode e.coreNodes hillFlux (substepCaps c e fl st)
        (substepEpref c e fl st) e.flow_receiver c.sedFluxFn)
        kernelInit).river_in := by
  have hQc0 : substepCaps c e fl st n = 0 := substepCaps_flooded c e fl st n hfl
  set Qc := substepCaps c e fl st with hQcdef
  set Ep := substepEpref c e fl st with hEpdef
  set accPre := pre.foldl
    (processNode e.coreNodes hillFlux Qc Ep e.flow_receiver c.sedFluxFn)
    kernelInit with hap
  have hpre_nonneg : ∀ j, 0 ≤ accPre.river_in j := by
    rw [hap]
    exact foldl_river_nonneg e.coreNodes hillFlux Qc Ep e.flow_receiver
      c.sedFluxFn hhf hcap pre kernelInit (fun j => le_refl 0)
  have hQs : 0 ≤ hillFlux n + accPre.river_in n :=
    add_nonneg (hhf n) (hpre_nonneg n)
  have hnotlt : ¬(hillFlux n + accPre.river_in n < Qc n) := by
    rw [hQc0]
    exact not_lt.mpr hQs
  have hout : substepOut c e fl hillFlux st =
      post.foldl (processNode e.coreNodes hillFlux Qc Ep e.flow_receiver
        c.sedFluxFn)
        (processNode e.coreNodes hillFlux Qc Ep e.flow_receiver c.sedFluxFn
          accPre n) := by
    rw [substepOut, iterate_sde_downstream, hsplit, List.foldl_append,
      List.foldl_cons, hap]
  have hriver_step : (processNode e.coreNodes hillFlux Qc Ep e.flow_receiver
      c.sedFluxFn accPre n).river_in = accPre.river_in :=
    processNode_capzero_river e.coreNodes hillFlux Qc Ep e.flow_receiver
      c.sedFluxFn accPre n hQc0 hQs
  have hown_post := foldl_own e.coreNodes hillFlux Qc Ep e.flow_receiver
    c.sedFluxFn n post
    (processNode e.coreNodes hillFlux Qc Ep e.flow_receiver c.sedFluxFn
      accPre n) hpost
  have hriver_post : (substepOut c e fl hillFlux st).river_in n =
      accPre.river_in n := by
    rw [hout,
      foldl_river_ne e.coreNodes hillFlux Qc Ep e.flow_receiver c.sedFluxFn
        n post _ (fun m hm => (hrecv m hm).symm),
      hriver_step]
  have hTLstep := processNode_TL e.coreNodes hillFlux Qc Ep e.flow_receiver
    c.sedFluxFn accPre n hn hnotlt
  refine ⟨hQc0, ?_, ?_, ?_, hriver_step⟩
  · rw [hout, hown_post.2.1, hTLstep]
    show (fun j => if j = n then true else accPre.is_it_TL j) n = true
    simp
  · rw [hout, hown_post.1, hTLstep]
    show upd accPre.dzbydt n 0 n = 0
    simp [upd]
  · rw [hriver_post, hout, hown_post.2.2, hTLstep]
    show upd accPre.voldroprate n (hillFlux n + accPre.river_in n - Qc n) n =
      hillFlux n + accPre.river_in n
    simp [upd, hQc0]

/- ------------------------------------------------------------------ -/
/- Zero transport capacity (K_t = 0): every core node is transport-limited,
   the bedrock never erodes, and the sub-step candidate is constant.  Used
   by the concrete witnesses. -/
/- ------------------------------------------------------------------ -/

theorem substepCaps_Kt_zero (c : SDEConfig) (e : ErodeEnv) (fl : ℕ → Bool)
    (st : LoopSt) (hKt : c.K_t = 0) :
    ∀ m, substepCaps c e fl st m = 0 := by
  intro m
  rw [substepCaps, transport_capacity_prefactor_withA, Kt_unit, hKt, zero_div,
    zero_mul, zero_mul]

theorem foldl_capzero_dz (core : List ℕ) (hf Qc Ep : ℕ → ℚ) (recv : ℕ → ℕ)
    (f : ℚ → ℚ) (hQc : ∀ m, Qc m = 0) (hhf : ∀ m, 0 ≤ hf m) :
    ∀ (l : List ℕ) (acc : KernelAcc),
      (∀ j, 0 ≤ acc.river_in j) → (∀ j, acc.dzbydt j = 0) →
      (∀ j, 0 ≤ (l.foldl (processNode core hf Qc Ep recv f) acc).river_in j) ∧
      (∀ j, (l.foldl (processNode core hf Qc Ep recv f) acc).dzbydt j = 0) := by
  intro l
  induction l with
  | nil => intro acc h1 h2; exact ⟨h1, h2⟩
  | cons m t ih =>
    intro acc h1 h2
    rw [List.foldl_cons]
    by_cases hc : m ∈ core
    · have hq : ¬(hf m + acc.river_in m < Qc m) := by
        rw [hQc m]
        exact not_lt.mpr (add_nonneg (hhf m) (h1 m))
      apply ih
      · exact processNode_river_nonneg core hf Qc Ep recv f acc m h1 (hhf m)
          (le_of_eq (hQc m).symm)
      · intro j
        rw [processNode_TL core hf Qc Ep recv f acc m hc hq]
        show upd acc.dzbydt m 0 j = 0
        rw [upd]
        split_ifs with hj
        · rfl
        · exact h2 j
    · rw [processNode_skip core hf Qc Ep recv f acc m hc]
      exact ih acc h1 h2

theorem foldl_capzero_TL (core : List ℕ) (hf Qc Ep : ℕ → ℚ) (recv : ℕ → ℕ)
    (f : ℚ → ℚ) (hQc : ∀ m, Qc m = 0) (hhf : ∀ m, 0 ≤ hf m) (n : ℕ)
    (hc : n ∈ core) :
    ∀ (l : List ℕ) (acc : KernelAcc),
      (∀ j, 0 ≤ acc.river_in j) →
      (n ∈ l ∨ acc.is_it_TL n = true) →
      (l.foldl (processNode core hf Qc Ep recv f) acc).is_it_TL n = true := by
  intro l
  induction l with
  | nil =>
    intro acc _ h2
    rcases h2 with h | h
    · exact absurd h (List.not_mem_nil n)
    · exact h
  | cons m t ih =>
    intro acc h1 h2
    rw [List.foldl_cons]
    have hr1 : ∀ j, 0 ≤ (processNode core hf Qc Ep recv f acc m).river_in j := by
      by_cases hcm : m ∈ core
      · exact processNode_river_nonneg core hf Qc Ep recv f acc m h1 (hhf m)
          (le_of_eq (hQc m).symm)
      · rw [processNode_skip core hf Qc Ep recv f acc m hcm]
        exact h1
    apply ih _ hr1
    rcases h2 with h | h
    · rcases List.mem_cons.mp h with he | ht
      · right
        rw [← he] at *
        have hq : ¬(hf n + acc.river_in n < Qc n) := by
          rw [hQc n]
          exact not_lt.mpr (add_nonneg (hhf n) (h1 n))
        rw [processNode_TL core hf Qc Ep recv f acc n hc hq]
        show (fun j => if j = n then true else acc.is_it_TL j) n = true
        simp
      · exact Or.inl ht
    · right
      by_cases hcm : m ∈ core
      · rw [processNode_core_eq core hf Qc Ep recv f acc m hcm]
        split_ifs with hq
        · exact h
        · show (fun j => if j = m then true else acc.is_it_TL j) n = true
          by_cases hj : n = m
          · simp [hj]
          · simp [hj, h]
      · rw [processNode_skip core hf Qc Ep recv f acc m hcm]
        exact h

theorem substepOut_dz_zero_of_Kt_zero (c : SDEConfig) (e : ErodeEnv)
    (fl : ℕ → Bool) (hillFlux : ℕ → ℚ) (st : LoopSt)
    (hKt : c.K_t = 0) (hhf : ∀ m, 0 ≤ hillFlux m) :
    ∀ j, (substepOut c e fl hillFlux st).dzbydt j = 0 := by
  rw [substepOut, iterate_sde_downstream]
  exact (foldl_capzero_dz e.coreNodes hillFlux (substepCaps c e fl st)
    (substepEpref c e fl st) e.flow_receiver c.sedFluxFn
    (substepCaps_Kt_zero c e fl st hKt) hhf e.s_in kernelInit
    (fun _ => le_refl 0) (fun _ => rfl)).2

theorem trace_TL_of_Kt_zero (c : SDEConfig) (e : ErodeEnv) (fl : ℕ → Bool)
    (dt_secs mtw : ℚ) (hillFlux : ℕ → ℚ) (n : ℕ)
    (hKt : c.K_t = 0) (hhf : ∀ m, 0 ≤ hillFlux m)
    (hn : n ∈ e.coreNodes) (hmem : n ∈ e.s_in) :
    ∀ (fuel : ℕ) (st : LoopSt),
      ∀ r ∈ (erodeLoop c e fl dt_secs mtw hillFlux fuel st).2.1,
        r.out.is_it_TL n = true := by
  intro fuel
  induction fuel with
  | zero => intro st r hr; exact absurd hr (List.not_mem_nil r)
  | succ fuel ih =>
    intro st r hr
    have hsub : (substep c e fl dt_secs mtw hillFlux st).2.out.is_it_TL n =
        true := by
      rw [substep_snd_out, substepOut, iterate_sde_downstream]
      exact foldl_capzero_TL e.coreNodes hillFlux (substepCaps c e fl st)
        (substepEpref c e fl st) e.flow_receiver c.sedFluxFn
        (substepCaps_Kt_zero c e fl st hKt) hhf n hn e.s_in kernelInit
        (fun _ => le_refl 0) (Or.inl hmem)
    by_cases hb : (substep c e fl dt_secs mtw hillFlux st).2.brk = true
    · rw [erodeLoop_succ_brk c e fl dt_secs mtw hillFlux fuel st hb] at hr
      have := List.mem_singleton.mp hr
      rw [this]
      exact hsub
    · rw [erodeLoop_succ_nobrk c e fl dt_secs mtw hillFlux fuel st
        (Bool.not_eq_true _ ▸ hb)] at hr
      rcases List.mem_cons.mp hr with he | ht
      · rw [he]
        exact hsub
      · exact ih _ r ht

theorem substepThis0_of_Kt_zero (c : SDEConfig) (e : ErodeEnv) (fl : ℕ → Bool)
    (dt_secs mtw : ℚ) (hillFlux : ℕ → ℚ) (st : LoopSt)
    (hKt : c.K_t = 0) (hhf : ∀ m, 0 ≤ hillFlux m) :
    substepThis0 c e fl dt_secs mtw hillFlux st =
      min (min (conv_factor * dt_secs) mtw) dt_secs := by
  have hdz := substepOut_dz_zero_of_Kt_zero c e fl hillFlux st hKt hhf
  simp only [substepThis0]
  rw [tconv_of_no_pairs _ _ _ _ _
    (convergingPairs_of_dz_zero e.nnodes _ st.node_z e.flow_receiver hdz)]
  simp [flood_node]

theorem erodeThis0_of_Kt_zero (c : SDEConfig) (e : ErodeEnv) (fl : ℕ → Bool)
    (dt : ℚ) (st : LoopSt)
    (hKt : c.K_t = 0)
    (hhf : ∀ m, 0 ≤ hillslope_flux_wzeros e (dt * secondsPerYear) m) :
    erodeThis0 c e fl dt st =
      min (min (conv_factor * (dt * secondsPerYear)) (max_tstep_wave c e))
        (dt * secondsPerYear) :=
  substepThis0_of_Kt_zero c e fl (dt * secondsPerYear) (max_tstep_wave c e)
    (hillslope_flux_wzeros e (dt * secondsPerYear)) st hKt hhf

theorem hillslope_flux_wzeros_nonneg (e : ErodeEnv) (dt_secs : ℚ)
    (hh : ∀ m, 0 ≤ e.hillslope_sediment m)
    (ha : ∀ m, 0 ≤ e.area_of_cell m) (hdt : 0 ≤ dt_secs) :
    ∀ m, 0 ≤ hillslope_flux_wzeros e dt_secs m := by
  intro m
  rw [hillslope_flux_wzeros]
  split_ifs with hm
  · exact div_nonneg (mul_nonneg (hh m) (ha m)) hdt
  · exact le_refl 0

theorem envW_sed_nonneg : ∀ m, 0 ≤ envW.hillslope_sediment m := by
  intro m
  norm_num [envW]

theorem envW_area_nonneg : ∀ m, 0 ≤ envW.area_of_cell m := by
  intro m
  norm_num [envW]

/-- Witness for C2 at the concrete network with node 1 flooded, entering
the first sub-step of a 10-second call. -/
theorem C2_flooded_perfect_trap_witness :
    substepCaps cfgW envW floodedW1 (initLoopSt envW) 1 = 0 ∧
    (substepOut cfgW envW floodedW1 (hillslope_flux_wzeros envW 10)
      (initLoopSt envW)).is_it_TL 1 = true ∧
    (substepOut cfgW envW floodedW1 (hillslope_flux_wzeros envW 10)
      (initLoopSt envW)).dzbydt 1 = 0 ∧
    (substepOut cfgW envW floodedW1 (hillslope_flux_wzeros envW 10)
      (initLoopSt envW)).voldroprate 1 =
      hillslope_flux_wzeros envW 10 1 +
      (substepOut cfgW envW floodedW1 (hillslope_flux_wzeros envW 10)
        (initLoopSt envW)).river_in 1 ∧
    (processNode envW.coreNodes (hillslope_flux_wzeros envW 10)
        (substepCaps cfgW envW floodedW1 (initLoopSt envW))
        (substepEpref cfgW envW floodedW1 (initLoopSt envW))
        envW.flow_receiver cfgW.sedFluxFn
        ([2].foldl (processNode envW.coreNodes (hillslope_flux_wzeros envW 10)
          (substepCaps cfgW envW floodedW1 (initLoopSt envW))
          (substepEpref cfgW envW floodedW1 (initLoopSt envW))
          envW.flow_receiver cfgW.sedFluxFn) kernelInit)
        1).river_in =
      ([2].foldl (processNode envW.coreNodes (hillslope_flux_wzeros envW 10)
        (substepCaps cfgW envW floodedW1 (initLoopSt envW))
        (substepEpref cfgW envW floodedW1 (initLoopSt envW))
        envW.flow_receiver cfgW.sedFluxFn) kernelInit).river_in :=
  C2_flooded_perfect_trap cfgW envW floodedW1 (hillslope_flux_wzeros envW 10)
    (initLoopSt envW) 1 [2] [0]
    (by decide) (by decide) (by decide) (by decide) (by decide)
    (hillslope_flux_wzeros_nonneg envW 10 envW_sed_nonneg envW_area_nonneg
      (by norm_num))
    (fun m => le_of_eq
      (substepCaps_Kt_zero cfgW envW floodedW1 (initLoopSt envW) rfl m).symm)

/- ------------------------------------------------------------------ -/
/- Transport-limited nodes conserve the sediment budget (claim C1). -/
/- ------------------------------------------------------------------ -/

theorem erodeLoop_TL_els (c : SDEConfig) (e : ErodeEnv) (fl : ℕ → Bool)
    (dt_secs mtw : ℚ) (hillFlux : ℕ → ℚ) (n : ℕ)
    (hn : n ∈ e.coreNodes) (hnd : e.s_in.Nodup) :
    ∀ (fuel : ℕ) (st : LoopSt),
      (∀ r ∈ (erodeLoop c e fl dt_secs mtw hillFlux fuel st).2.1,
        r.out.is_it_TL n = true) →
      (erodeLoop c e fl dt_secs mtw hillFlux fuel st).1.elev_less_sed n =
        st.elev_less_sed n ∧
      (fuel ≠ 0 →
        (erodeLoop c e fl dt_secs mtw hillFlux fuel st).1.node_z n =
          (erodeLoop c e fl dt_secs mtw hillFlux fuel st).1.elev_less_sed n +
          (erodeLoop c e fl dt_secs mtw hillFlux fuel st).1.hillslope_sed n) := by
  intro fuel
  induction fuel with
  | zero => intro st _; exact ⟨rfl, fun h => absurd rfl h⟩
  | succ fuel ih =>
    intro st hTL
    by_cases hb : (substep c e fl dt_secs mtw hillFlux st).2.brk = true
    · rw [erodeLoop_succ_brk c e fl dt_secs mtw hillFlux fuel st hb] at hTL ⊢
      have hr := hTL _ (List.mem_singleton.mpr rfl)
      rw [substep_snd_out, substepOut, iterate_sde_downstream] at hr
      have hdz : (substepOut c e fl hillFlux st).dzbydt n = 0 := by
        rw [substepOut, iterate_sde_downstream]
        exact isTL_dz_zero e.coreNodes hillFlux (substepCaps c e fl st)
          (substepEpref c e fl st) e.flow_receiver c.sedFluxFn e.s_in hnd n hr
      constructor
      · show (substep c e fl dt_secs mtw hillFlux st).1.elev_less_sed n = _
        rw [substep_fst_els, if_pos hn, hdz, zero_mul, add_zero]
      · intro _
        show (substep c e fl dt_secs mtw hillFlux st).1.node_z n = _
        rw [substep_fst_z, if_pos hn]
    · rw [erodeLoop_succ_nobrk c e fl dt_secs mtw hillFlux fuel st
        (Bool.not_eq_true _ ▸ hb)] at hTL ⊢
      have hr := hTL _ (List.mem_cons_self _ _)
      rw [substep_snd_out, substepOut, iterate_sde_downstream] at hr
      have hdz : (substepOut c e fl hillFlux st).dzbydt n = 0 := by
        rw [substepOut, iterate_sde_downstream]
        exact isTL_dz_zero e.coreNodes hillFlux (substepCaps c e fl st)
          (substepEpref c e fl st) e.flow_receiver c.sedFluxFn e.s_in hnd n hr
      have htail : ∀ r ∈ (erodeLoop c e fl dt_secs mtw hillFlux fuel
          (substep c e fl dt_secs mtw hillFlux st).1).2.1,
          r.out.is_it_TL n = true :=
        fun r hrr => hTL r (List.mem_cons_of_mem _ hrr)
      have hels1 : (substep c e fl dt_secs mtw hillFlux st).1.elev_less_sed n =
          st.elev_less_sed n := by
        rw [substep_fst_els, if_pos hn, hdz, zero_mul, add_zero]
      have hih := ih (substep c e fl dt_secs mtw hillFlux st).1 htail
      constructor
      · rw [hih.1, hels1]
      · intro _
        by_cases hf0 : fuel = 0
        · subst hf0
          show (substep c e fl dt_secs mtw hillFlux st).1.node_z n = _
          rw [substep_fst_z, if_pos hn]
          rfl
        · exact hih.2 hf0

/-- C1 (amended): after one call to `erode` on a grid whose
`channel_sediment__depth` was uniformly initialized to `h0`, every core
node `n` that the component classifies as transport-limited in EVERY
executed sub-step of the call — a strictly stronger condition than the
final `is_it_TL[n]` flag the claim names, which only reports the last
sub-step and for which the budget fails on multi-sub-step calls —
satisfies `sediment_depth[n] + (z_initial[n] - z_final[n]) = h0`
exactly: the bedrock surface `elev_less_sed` never lowers at `n`, so
elevation change is pure exchange with the sediment layer. -/
theorem C1_TL_sediment_budget (c : SDEConfig) (e : ErodeEnv) (dt : ℚ)
    (fl : ℕ → Bool) (fuel : ℕ) (n : ℕ) (h0 : ℚ)
    (hfuel : fuel ≠ 0) (hn : n ∈ e.coreNodes) (hnd : e.s_in.Nodup)
    (hh : ∀ m, e.hillslope_sediment m = h0)
    (hTL : ∀ r ∈ (erode c e dt fl fuel).trace, r.out.is_it_TL n = true) :
    (erode c e dt fl fuel).hillslope_sediment n +
      (e.node_z n - (erode c e dt fl fuel).node_z n) = h0 := by
  rw [erode_trace] at hTL
  have key := erodeLoop_TL_els c e fl (dt * secondsPerYear)
    (max_tstep_wave c e) (hillslope_flux_wzeros e (dt * secondsPerYear)) n hn
    hnd fuel (initLoopSt e) hTL
  rw [erode_hillsed, erode_z]
  rw [key.2 hfuel, key.1]
  have hinit : (initLoopSt e).elev_less_sed n =
      e.node_z n - e.hillslope_sediment n := rfl
  rw [hinit, hh n]
  ring

/-- Witness for C1: on the three-node network with zero transport
prefactor (all core nodes TL in every sub-step), uniform initial sediment
depth 0.0007, a 10-second call; node 1 satisfies the budget exactly. -/
theorem C1_TL_sediment_budget_witness :
    (erode cfgW envW dtW floodedW 5).hillslope_sediment 1 +
      (envW.node_z 1 - (erode cfgW envW dtW floodedW 5).node_z 1) =
      7 / 10000 := by
  apply C1_TL_sediment_budget cfgW envW dtW floodedW 5 1 (7 / 10000)
    (by norm_num) (by decide) (by decide) (fun m => rfl)
  rw [erode_trace]
  exact trace_TL_of_Kt_zero cfgW envW floodedW (dtW * secondsPerYear)
    (max_tstep_wave cfgW envW)
    (hillslope_flux_wzeros envW (dtW * secondsPerYear)) 1 rfl
    (hillslope_flux_wzeros_nonneg envW (dtW * secondsPerYear) envW_sed_nonneg
      envW_area_nonneg (by norm_num [dtW, secondsPerYear]))
    (by decide) (by decide) 5 (initLoopSt envW)

/- ------------------------------------------------------------------ -/
/- Termination and exact time bookkeeping of the sub-step loop (claim C6). -/
/- ------------------------------------------------------------------ -/

theorem substepApplied_eq (c : SDEConfig) (e : ErodeEnv) (fl : ℕ → Bool)
    (dt_secs mtw : ℚ) (hillFlux : ℕ → ℚ) (st : LoopSt) :
    substepApplied c e fl dt_secs mtw hillFlux st =
      if dt_secs ≤ st.t_elapsed_internal +
          substepThis0 c e fl dt_secs mtw hillFlux st then
        substepThis0 c e fl dt_secs mtw hillFlux st -
          (st.t_elapsed_internal +
            substepThis0 c e fl dt_secs mtw hillFlux st - dt_secs)
      else substepThis0 c e fl dt_secs mtw hillFlux st := rfl

theorem sumApplied_cons (r : SubstepRec) (l : List SubstepRec) :
    sumApplied (r :: l) = r.this_tstep + sumApplied l := by
  rw [sumApplied, List.map_cons, List.sum_cons]
  rfl

theorem erodeThis0_eq (c : SDEConfig) (e : ErodeEnv) (fl : ℕ → Bool)
    (dt : ℚ) (st : LoopSt) :
    substepThis0 c e fl (dt * secondsPerYear) (max_tstep_wave c e)
      (hillslope_flux_wzeros e (dt * secondsPerYear)) st =
      erodeThis0 c e fl dt st := rfl

theorem erodeLoop_sum_aux (c : SDEConfig) (e : ErodeEnv) (fl : ℕ → Bool)
    (dt δ : ℚ) (N : ℕ) (_hδ : 0 < δ)
    (hstep : ∀ k < N,
      (iterSt c e fl dt k).t_elapsed_internal < dt * secondsPerYear →
      δ ≤ erodeThis0 c e fl dt (iterSt c e fl dt k)) :
    ∀ (m k : ℕ), k + m ≤ N →
      (iterSt c e fl dt k).t_elapsed_internal < dt * secondsPerYear →
      dt * secondsPerYear - (iterSt c e fl dt k).t_elapsed_internal ≤
        δ * (m : ℚ) →
      (erodeLoop c e fl (dt * secondsPerYear) (max_tstep_wave c e)
          (hillslope_flux_wzeros e (dt * secondsPerYear)) m
          (iterSt c e fl dt k)).2.2 = true ∧
      sumApplied (erodeLoop c e fl (dt * secondsPerYear) (max_tstep_wave c e)
          (hillslope_flux_wzeros e (dt * secondsPerYear)) m
          (iterSt c e fl dt k)).2.1 =
        dt * secondsPerYear - (iterSt c e fl dt k).t_elapsed_internal := by
  intro m
  induction m with
  | zero =>
    intro k _ hlt hrem
    exfalso
    norm_num at hrem
    linarith
  | succ m ih =>
    intro k hk hlt hrem
    have hthis : δ ≤ erodeThis0 c e fl dt (iterSt c e fl dt k) :=
      hstep k (by omega) hlt
    have helapsed : (substep c e fl (dt * secondsPerYear) (max_tstep_wave c e)
        (hillslope_flux_wzeros e (dt * secondsPerYear))
        (iterSt c e fl dt k)).1.t_elapsed_internal =
        (iterSt c e fl dt k).t_elapsed_internal +
          erodeThis0 c e fl dt (iterSt c e fl dt k) := rfl
    have hnext : (substep c e fl (dt * secondsPerYear) (max_tstep_wave c e)
        (hillslope_flux_wzeros e (dt * secondsPerYear))
        (iterSt c e fl dt k)).1 = iterSt c e fl dt (k + 1) :=
      (Function.iterate_succ_apply'
        (fun st => (substepFull c e fl dt st).1) k (initLoopSt e)).symm
    by_cases hb : dt * secondsPerYear ≤
        (iterSt c e fl dt k).t_elapsed_internal +
          erodeThis0 c e fl dt (iterSt c e fl dt k)
    · have hbrk : (substep c e fl (dt * secondsPerYear) (max_tstep_wave c e)
          (hillslope_flux_wzeros e (dt * secondsPerYear))
          (iterSt c e fl dt k)).2.brk = true := by
        rw [substep_snd_brk, erodeThis0_eq]
        exact decide_eq_true hb
      rw [erodeLoop_succ_brk c e fl (dt * secondsPerYear) (max_tstep_wave c e)
        (hillslope_flux_wzeros e (dt * secondsPerYear)) m
        (iterSt c e fl dt k) hbrk]
      refine ⟨rfl, ?_⟩
      rw [sumApplied_cons, substep_snd_tstep, substepApplied_eq, erodeThis0_eq,
        if_pos hb]
      show _ + sumApplied [] = _
      rw [sumApplied, List.map_nil, List.sum_nil, add_zero]
      ring
    · have hbrk : (substep c e fl (dt * secondsPerYear) (max_tstep_wave c e)
          (hillslope_flux_wzeros e (dt * secondsPerYear))
          (iterSt c e fl dt k)).2.brk = false := by
        rw [substep_snd_brk, erodeThis0_eq]
        exact decide_eq_false hb
      rw [erodeLoop_succ_nobrk c e fl (dt * secondsPerYear)
        (max_tstep_wave c e) (hillslope_flux_wzeros e (dt * secondsPerYear))
        m (iterSt c e fl dt k) hbrk]
      have hlt' : (iterSt c e fl dt (k + 1)).t_elapsed_internal <
          dt * secondsPerYear := by
        rw [← hnext, helapsed]
        exact not_le.mp hb
      have hrem' : dt * secondsPerYear -
          (iterSt c e fl dt (k + 1)).t_elapsed_internal ≤ δ * (m : ℚ) := by
        rw [← hnext, helapsed]
        push_cast at hrem
        linarith
      obtain ⟨hb2, hs2⟩ := ih (k + 1) (by omega) hlt' hrem'
      rw [hnext]
      refine ⟨hb2, ?_⟩
      rw [sumApplied_cons, substep_snd_tstep, substepApplied_eq, erodeThis0_eq,
        if_neg hb, hs2, ← hnext, helapsed]
      ring

theorem erodeLoop_broke_sum (c : SDEConfig) (e : ErodeEnv) (fl : ℕ → Bool)
    (dt_secs mtw : ℚ) (hillFlux : ℕ → ℚ) :
    ∀ (fuel : ℕ) (st : LoopSt),
      (erodeLoop c e fl dt_secs mtw hillFlux fuel st).2.2 = true →
      sumApplied (erodeLoop c e fl dt_secs mtw hillFlux fuel st).2.1 =
        dt_secs - st.t_elapsed_internal := by
  intro fuel
  induction fuel with
  | zero =>
    intro st hbr
    exact absurd hbr (by
      rw [show (erodeLoop c e fl dt_secs mtw hillFlux 0 st).2.2 = false
        from rfl]
      exact Bool.false_ne_true)
  | succ fuel ih =>
    intro st hbr
    by_cases hb : (substep c e fl dt_secs mtw hillFlux st).2.brk = true
    · rw [erodeLoop_succ_brk c e fl dt_secs mtw hillFlux fuel st hb]
      have hcond : dt_secs ≤ st.t_elapsed_internal +
          substepThis0 c e fl dt_secs mtw hillFlux st := by
        have hd : decide (dt_secs ≤ st.t_elapsed_internal +
            substepThis0 c e fl dt_secs mtw hillFlux st) = true := by
          rw [← substep_snd_brk c e fl dt_secs mtw hillFlux st]
          exact hb
        exact of_decide_eq_true hd
      rw [sumApplied_cons, substep_snd_tstep, substepApplied_eq, if_pos hcond]
      show _ + sumApplied [] = _
      rw [sumApplied, List.map_nil, List.sum_nil, add_zero]
      ring
    · have hb' : (substep c e fl dt_secs mtw hillFlux st).2.brk = false :=
        Bool.eq_false_iff.mpr hb
      rw [erodeLoop_succ_nobrk c e fl dt_secs mtw hillFlux fuel st hb'] at hbr
      rw [erodeLoop_succ_nobrk c e fl dt_secs mtw hillFlux fuel st hb']
      have hcond : ¬(dt_secs ≤ st.t_elapsed_internal +
          substepThis0 c e fl dt_secs mtw hillFlux st) := by
        have hd : decide (dt_secs ≤ st.t_elapsed_internal +
            substepThis0 c e fl dt_secs mtw hillFlux st) = false := by
          rw [← substep_snd_brk c e fl dt_secs mtw hillFlux st]
          exact hb'
        exact of_decide_eq_false hd
      rw [sumApplied_cons, substep_snd_tstep, substepApplied_eq, if_neg hcond]
      rw [ih _ hbr, substep_fst_elapsed]
      ring

/-- C6 (amended): whenever the sub-step loop of `erode` does reach its
`break` — which does NOT happen for every positive `dt`, since the
convergence criterion can shrink the sub-steps geometrically and the
1-hour floor is dead code — the applied sub-step lengths sum exactly to
`dt * 31557600` seconds: the final sub-step is trimmed by
`this_tstep -= t_elapsed_internal - dt_secs` so the total lands exactly
on the requested boundary.  Termination itself holds under the extra
hypothesis that every reachable sub-step candidate admits a fixed
positive lower bound `δ` while the elapsed counter is still below the
target: then the loop breaks within any `N` passes with
`dt_secs ≤ δ·N`, with the same exact sum. -/
theorem C6_substeps_amended (c : SDEConfig) (e : ErodeEnv) (fl : ℕ → Bool)
    (dt : ℚ) :
    (∀ fuel : ℕ, (erode c e dt fl fuel).broke = true →
      sumApplied (erode c e dt fl fuel).trace = dt * secondsPerYear) ∧
    (∀ (δ : ℚ) (N : ℕ),
      0 < dt * secondsPerYear → 0 < δ →
      dt * secondsPerYear ≤ δ * (N : ℚ) →
      (∀ k < N,
        (iterSt c e fl dt k).t_elapsed_internal < dt * secondsPerYear →
        δ ≤ erodeThis0 c e fl dt (iterSt c e fl dt k)) →
      (erode c e dt fl N).broke = true ∧
      sumApplied (erode c e dt fl N).trace = dt * secondsPerYear) := by
  constructor
  · intro fuel hbroke
    rw [erode_broke] at hbroke
    rw [erode_trace]
    rw [erodeLoop_broke_sum c e fl (dt * secondsPerYear)
      (max_tstep_wave c e) (hillslope_flux_wzeros e (dt * secondsPerYear))
      fuel (initLoopSt e) hbroke]
    rw [show (initLoopSt e).t_elapsed_internal = 0 from rfl, sub_zero]
  · intro δ N hdt hδ hN hstep
    have hel0 : (iterSt c e fl dt 0).t_elapsed_internal = 0 := rfl
    have haux := erodeLoop_sum_aux c e fl dt δ N hδ hstep N 0 (by omega)
      (by rw [hel0]; exact hdt) (by rw [hel0, sub_zero]; exact hN)
    have h0 : iterSt c e fl dt 0 = initLoopSt e := rfl
    have hinit_el : (initLoopSt e).t_elapsed_internal = 0 := rfl
    rw [h0] at haux
    rw [erode_broke, erode_trace]
    exact ⟨haux.1, by rw [haux.2, hinit_el, sub_zero]⟩

theorem max_tstep_wave_W : max_tstep_wave cfgW envW = 20 := by
  rw [max_tstep_wave, waveRatios_eq]
  rw [show coreDrainingNodes envW = [1, 2] from by decide]
  have hclose : iscloseOne ((cfgW.n_sp : ℤ) : ℚ) = true := by
    rw [iscloseOne]
    norm_num [cfgW]
  have hd1 : wave_stab_cond_denominator cfgW envW 1 = 1 := by
    rw [wave_stab_cond_denominator, if_pos hclose, erosion_prefactor_withA,
      K_unit_time]
    norm_num [cfgW, envW, secondsPerYear]
  have hd2 : wave_stab_cond_denominator cfgW envW 2 = 1 := by
    rw [wave_stab_cond_denominator, if_pos hclose, erosion_prefactor_withA,
      K_unit_time]
    norm_num [cfgW, envW, secondsPerYear]
  have hl1 : linkLenQ envW 1 = 100 := by norm_num [linkLenQ, envW]
  have hl2 : linkLenQ envW 2 = 100 := by norm_num [linkLenQ, envW]
  rw [List.map_cons, List.map_cons, List.map_nil, hd1, hd2, hl1, hl2]
  rw [listMin]
  norm_num [WAVE_STABILITY_PREFACTOR]

/-- Witness for the amended C6 on the concrete network: every sub-step
consumes exactly 3 seconds (so at least δ = 1), the loop breaks on the
fourth pass, and the applied sub-steps sum exactly to the requested 10
seconds. -/
theorem C6_substeps_amended_witness :
    (erode cfgW envW dtW floodedW 11).broke = true ∧
    sumApplied (erode cfgW envW dtW floodedW 11).trace =
      dtW * secondsPerYear := by
  have hdt10 : dtW * secondsPerYear = 10 := by
    norm_num [dtW, secondsPerYear]
  apply (C6_substeps_amended cfgW envW floodedW dtW).2 1 11
  · rw [hdt10]
    norm_num
  · norm_num
  · rw [hdt10]
    norm_num
  · intro k _ _
    rw [erodeThis0_of_Kt_zero cfgW envW floodedW dtW _ rfl
      (hillslope_flux_wzeros_nonneg envW (dtW * secondsPerYear)
        envW_sed_nonneg envW_area_nonneg (by rw [hdt10]; norm_num))]
    rw [hdt10, max_tstep_wave_W]
    rw [show conv_factor * (10 : ℚ) = 3 from by norm_num [conv_factor]]
    rw [show min (3 : ℚ) 20 = 3 from min_eq_left (by norm_num)]
    rw [show min (3 : ℚ) 10 = 3 from min_eq_left (by norm_num)]
    norm_num

/- ------------------------------------------------------------------ -/
/- A zero-length timestep mutates the state (claim C5). -/
/- ------------------------------------------------------------------ -/

/-- C5 is violated by the code: calling `erode` with `dt = 0` does not
leave the arrays bit-identical.  The call unconditionally zero-fills the
persistent sediment-depth field, converts it to a supply flux by dividing
by `dt_secs = 0` (a division by zero), and rebuilds the depth as
`rate * this_tstep` with `this_tstep = 0`; on the concrete network, node 1
enters with depth 0.0007 and leaves with depth exactly 0, and its
elevation drops by the lost sediment thickness. -/
theorem C5_dt_zero_mutates :
    (erode cfgW envW 0 floodedW 1).hillslope_sediment 1 = 0 ∧
    envW.hillslope_sediment 1 = 7 / 10000 ∧
    (erode cfgW envW 0 floodedW 1).node_z 1 = envW.node_z 1 - 7 / 10000 ∧
    (erode cfgW envW 0 floodedW 1).node_z 1 ≠ envW.node_z 1 := by
  have hdt0 : (0 : ℚ) * secondsPerYear = 0 := zero_mul _
  have hhf : ∀ m, 0 ≤ hillslope_flux_wzeros envW ((0 : ℚ) * secondsPerYear) m :=
    hillslope_flux_wzeros_nonneg envW _ envW_sed_nonneg envW_area_nonneg
      (by rw [hdt0])
  have hthis0 : substepThis0 cfgW envW floodedW ((0 : ℚ) * secondsPerYear)
      (max_tstep_wave cfgW envW)
      (hillslope_flux_wzeros envW ((0 : ℚ) * secondsPerYear))
      (initLoopSt envW) = 0 := by
    rw [substepThis0_of_Kt_zero cfgW envW floodedW _ _ _ _ rfl hhf]
    rw [hdt0, mul_zero, max_tstep_wave_W]
    rw [show min (0 : ℚ) 20 = 0 from min_eq_left (by norm_num)]
    exact min_self 0
  have hcond : (0 : ℚ) * secondsPerYear ≤
      (initLoopSt envW).t_elapsed_internal + substepThis0 cfgW envW floodedW
        ((0 : ℚ) * secondsPerYear) (max_tstep_wave cfgW envW)
        (hillslope_flux_wzeros envW ((0 : ℚ) * secondsPerYear))
        (initLoopSt envW) := by
    rw [hthis0, hdt0]
    norm_num [initLoopSt]
  have happ : substepApplied cfgW envW floodedW ((0 : ℚ) * secondsPerYear)
      (max_tstep_wave cfgW envW)
      (hillslope_flux_wzeros envW ((0 : ℚ) * secondsPerYear))
      (initLoopSt envW) = 0 := by
    rw [substepApplied_eq, if_pos hcond, hthis0, hdt0]
    norm_num [initLoopSt]
  have hbrk : (substep cfgW envW floodedW ((0 : ℚ) * secondsPerYear)
      (max_tstep_wave cfgW envW)
      (hillslope_flux_wzeros envW ((0 : ℚ) * secondsPerYear))
      (initLoopSt envW)).2.brk = true := by
    rw [substep_snd_brk]
    exact decide_eq_true hcond
  have hloop := erodeLoop_succ_brk cfgW envW floodedW
    ((0 : ℚ) * secondsPerYear) (max_tstep_wave cfgW envW)
    (hillslope_flux_wzeros envW ((0 : ℚ) * secondsPerYear)) 0
    (initLoopSt envW) hbrk
  have hhill : (erode cfgW envW 0 floodedW 1).hillslope_sediment 1 = 0 := by
    rw [erode_hillsed, hloop]
    rw [substep_fst_hill, if_pos (show (1 : ℕ) ∈ envW.nodeAtCell from by decide),
      happ, mul_zero]
  have hz : (erode cfgW envW 0 floodedW 1).node_z 1 =
      envW.node_z 1 - 7 / 10000 := by
    rw [erode_z, hloop]
    rw [substep_fst_z, if_pos (show (1 : ℕ) ∈ envW.coreNodes from by decide)]
    rw [substep_fst_els, if_pos (show (1 : ℕ) ∈ envW.coreNodes from by decide),
      happ, mul_zero, add_zero]
    rw [substep_fst_hill, if_pos (show (1 : ℕ) ∈ envW.nodeAtCell from by decide),
      happ, mul_zero, add_zero]
    show envW.node_z 1 - envW.hillslope_sediment 1 = _
    norm_num [envW]
  refine ⟨hhill, rfl, hz, ?_⟩
  rw [hz]
  norm_num [envW]

/- ------------------------------------------------------------------ -/
/- Shared machinery for the concrete two-node runs (claims C1 and C6). -/
/- ------------------------------------------------------------------ -/

theorem erode_isTL (c : SDEConfig) (e : ErodeEnv) (dt : ℚ) (fl : ℕ → Bool)
    (fuel : ℕ) :
    (erode c e dt fl fuel).is_it_TL =
      (((erodeLoop c e fl (dt * secondsPerYear) (max_tstep_wave c e)
        (hillslope_flux_wzeros e (dt * secondsPerYear)) fuel
        (initLoopSt e)).2.1.getLast?).map (fun r => r.out.is_it_TL)).getD
        (fun _ => false) := rfl

theorem substep_fst_slopes (c : SDEConfig) (e : ErodeEnv) (fl : ℕ → Bool)
    (dt_secs mtw : ℚ) (hillFlux : ℕ → ℚ) (st : LoopSt) :
    (substep c e fl dt_secs mtw hillFlux st).1.downward_slopes =
      (if dt_secs ≤ st.t_elapsed_internal +
          substepThis0 c e fl dt_secs mtw hillFlux st then
        st.downward_slopes
      else fun n =>
        max (if n ∈ coreDrainingNodes e then
            ((substep c e fl dt_secs mtw hillFlux st).1.node_z n -
             (substep c e fl dt_secs mtw hillFlux st).1.node_z
               (e.flow_receiver n)) / linkLenQ e n
          else 0) 0) := rfl

theorem fold_two_nodes (core : List ℕ) (hf Qc Ep : ℕ → ℚ) (recv : ℕ → ℕ)
    (f : ℚ → ℚ) (h0 : 0 ∉ core) :
    iterate_sde_downstream [1, 0] core hf Qc Ep recv f =
      processNode core hf Qc Ep recv f kernelInit 1 := by
  rw [iterate_sde_downstream, List.foldl_cons, List.foldl_cons, List.foldl_nil,
    processNode_skip core hf Qc Ep recv f _ 0 h0]

theorem processNode_DL (core : List ℕ) (hf Qc Ep : ℕ → ℚ) (recv : ℕ → ℕ)
    (f : ℚ → ℚ) (acc : KernelAcc) (n : ℕ) (hc : n ∈ core)
    (hq : hf n + acc.river_in n < Qc n) :
    processNode core hf Qc Ep recv f acc n =
      { acc with
        dzbydt := upd acc.dzbydt n
          (-(Ep n * f ((hf n + acc.river_in n) / Qc n)))
        rel_sed_flux := upd acc.rel_sed_flux n ((hf n + acc.river_in n) / Qc n)
        river_in := upd acc.river_in (recv n)
          (acc.river_in (recv n) + (hf n + acc.river_in n)) } := by
  rw [processNode_core_eq core hf Qc Ep recv f acc n hc, if_pos hq]

theorem convergingPairs_two (dzbydt z : ℕ → ℚ) (recv : ℕ → ℕ)
    (h0 : recv 0 = 0) (h1 : recv 1 = 0)
    (hd : 0 < dzbydt 0 - dzbydt 1) (hz : 0 < z 1 - z 0) :
    convergingPairs 2 dzbydt z recv = [1] := by
  rw [convergingPairs, show List.range 2 = [0, 1] from by decide]
  rw [List.filter_cons_of_neg, List.filter_cons_of_pos, List.filter_nil]
  · rw [h1]
    rw [decide_eq_true hd, decide_eq_true hz]
    rfl
  · rw [h0, sub_self]
    rw [decide_eq_false (lt_irrefl (0 : ℚ))]
    simp

theorem tconv_single (nnodes : ℕ) (dzbydt z : ℕ → ℚ) (recv : ℕ → ℕ)
    (dt_secs : ℚ)
    (hp : convergingPairs nnodes dzbydt z recv = [1]) :
    t_to_converge_preWave nnodes dzbydt z recv dt_secs =
      conv_factor * ((z 1 - z (recv 1)) / (dzbydt (recv 1) - dzbydt 1)) := by
  rw [t_to_converge_preWave, hp]
  rw [if_neg (by simp : ¬([1] : List ℕ) = [])]
  rw [List.map_cons, List.map_nil]
  rfl

theorem outDL_dz (core : List ℕ) (hf Qc Ep : ℕ → ℚ) (recv : ℕ → ℕ)
    (f : ℚ → ℚ) (h0 : 0 ∉ core) (h1 : 1 ∈ core)
    (hq : hf 1 + kernelInit.river_in 1 < Qc 1) :
    ∀ j, (iterate_sde_downstream [1, 0] core hf Qc Ep recv f).dzbydt j =
      if j = 1 then -(Ep 1 * f ((hf 1 + kernelInit.river_in 1) / Qc 1))
      else 0 := by
  intro j
  rw [fold_two_nodes core hf Qc Ep recv f h0,
    processNode_DL core hf Qc Ep recv f kernelInit 1 h1 hq]
  show upd kernelInit.dzbydt 1 _ j = _
  rw [upd]
  split_ifs with hj
  · rfl
  · rfl

theorem outDL_vol (core : List ℕ) (hf Qc Ep : ℕ → ℚ) (recv : ℕ → ℕ)
    (f : ℚ → ℚ) (h0 : 0 ∉ core) (h1 : 1 ∈ core)
    (hq : hf 1 + kernelInit.river_in 1 < Qc 1) :
    ∀ j, (iterate_sde_downstream [1, 0] core hf Qc Ep recv f).voldroprate j = 0 := by
  intro j
  rw [fold_two_nodes core hf Qc Ep recv f h0,
    processNode_DL core hf Qc Ep recv f kernelInit 1 h1 hq]
  rfl

theorem outTL_proj (core : List ℕ) (hf Qc Ep : ℕ → ℚ) (recv : ℕ → ℕ)
    (f : ℚ → ℚ) (h0 : 0 ∉ core) (h1 : 1 ∈ core)
    (hq : ¬(hf 1 + kernelInit.river_in 1 < Qc 1)) :
    (iterate_sde_downstream [1, 0] core hf Qc Ep recv f).is_it_TL 1 = true ∧
    (∀ j, (iterate_sde_downstream [1, 0] core hf Qc Ep recv f).dzbydt j = 0) ∧
    (iterate_sde_downstream [1, 0] core hf Qc Ep recv f).voldroprate 1 =
      hf 1 + kernelInit.river_in 1 - Qc 1 := by
  rw [fold_two_nodes core hf Qc Ep recv f h0,
    processNode_TL core hf Qc Ep recv f kernelInit 1 h1 hq]
  refine ⟨?_, ?_, ?_⟩
  · show (fun j => if j = 1 then true else kernelInit.is_it_TL j) 1 = true
    simp
  · intro j
    show upd kernelInit.dzbydt 1 0 j = 0
    rw [upd]
    split_ifs
    · rfl
    · rfl
  · show upd kernelInit.voldroprate 1 (hf 1 + kernelInit.river_in 1 - Qc 1) 1 =
      hf 1 + kernelInit.river_in 1 - Qc 1
    simp [upd]

/- ------------------------------------------------------------------ -/
/- The Zeno run on envZ: the sub-step loop never reaches its break. -/
/- ------------------------------------------------------------------ -/

theorem dtZ_secs : dtZ * secondsPerYear = 2 := by
  norm_num [dtZ, secondsPerYear]

theorem hillslope_flux_Z (dt_secs : ℚ) (n : ℕ) :
    hillslope_flux_wzeros envZ dt_secs n = 0 := by
  rw [hillslope_flux_wzeros]
  exact if_neg (List.not_mem_nil n)

theorem coreDraining_Z : coreDrainingNodes envZ = [1] := by decide

theorem max_tstep_wave_Z : max_tstep_wave cfgZ envZ = 2 / 5 := by
  rw [max_tstep_wave, waveRatios_eq, coreDraining_Z]
  have hnot : ¬(iscloseOne ((cfgZ.n_sp : ℤ) : ℚ) = true) := by
    rw [iscloseOne]
    rw [decide_eq_true_eq]
    norm_num [cfgZ]
  have hS : max (envZ.node_S 1) machineEps = 2 := by
    rw [show envZ.node_S 1 = 2 from rfl]
    exact max_eq_left (by norm_num [machineEps])
  have hd : wave_stab_cond_denominator cfgZ envZ 1 = 1 / 2 := by
    rw [wave_stab_cond_denominator, if_neg hnot, erosion_prefactor_withA,
      K_unit_time, hS]
    norm_num [cfgZ, envZ, secondsPerYear, zpow_zero]
  have hl : linkLenQ envZ 1 = 1 := by
    rw [linkLenQ]
    rfl
  rw [List.map_cons, List.map_nil, hd, hl]
  rw [show listMin [(1 : ℚ) / (1 / 2)] = (1 : ℚ) / (1 / 2) from rfl]
  norm_num [WAVE_STABILITY_PREFACTOR]

theorem capsZ (st : LoopSt) :
    substepCaps cfgZ envZ floodedW st 1 = st.downward_slopes 1 := by
  rw [substepCaps, transport_capacity_prefactor_withA, Kt_unit]
  rw [if_neg (by rw [show floodedW 1 = false from rfl]; exact Bool.false_ne_true)]
  rw [show cfgZ.n_t = 1 from rfl, zpow_one]
  norm_num [cfgZ, envZ, secondsPerYear]

theorem eprefZ (st : LoopSt) :
    substepEpref cfgZ envZ floodedW st 1 = 1 := by
  rw [substepEpref, erosion_prefactor_withA, K_unit_time]
  rw [if_neg (by rw [show floodedW 1 = false from rfl]; exact Bool.false_ne_true)]
  rw [show cfgZ.n_sp = 0 from rfl, zpow_zero]
  norm_num [cfgZ, envZ, secondsPerYear]

theorem zeno_out (st : LoopSt) (hds : 0 < st.downward_slopes 1) :
    ∀ j, (substepOut cfgZ envZ floodedW
      (hillslope_flux_wzeros envZ (dtZ * secondsPerYear)) st).dzbydt j =
      (if j = 1 then -1 else 0) := by
  intro j
  rw [substepOut, show envZ.s_in = [1, 0] from rfl]
  have hq : hillslope_flux_wzeros envZ (dtZ * secondsPerYear) 1 +
      kernelInit.river_in 1 < substepCaps cfgZ envZ floodedW st 1 := by
    rw [hillslope_flux_Z, capsZ, show kernelInit.river_in 1 = 0 from rfl,
      add_zero]
    exact hds
  rw [outDL_dz envZ.coreNodes _ _ _ _ _ (by decide) (by decide) hq j]
  split_ifs with hj
  · rw [eprefZ]
    norm_num [cfgZ, sed_flux_fn_gen_const]
  · rfl

theorem zeno_this0 (st : LoopSt) (hP : zenoInv st) :
    substepThis0 cfgZ envZ floodedW (dtZ * secondsPerYear)
      (max_tstep_wave cfgZ envZ)
      (hillslope_flux_wzeros envZ (dtZ * secondsPerYear)) st =
      conv_factor * st.node_z 1 := by
  obtain ⟨hz1, hz0, _, _, hel0, hsum, hds⟩ := hP
  have hz1le : st.node_z 1 ≤ 1 := by linarith
  have hdz := zeno_out st hds
  have hpairs : convergingPairs envZ.nnodes
      (substepOut cfgZ envZ floodedW
        (hillslope_flux_wzeros envZ (dtZ * secondsPerYear)) st).dzbydt
      st.node_z envZ.flow_receiver = [1] := by
    rw [show envZ.nnodes = 2 from rfl]
    refine convergingPairs_two _ _ _ rfl rfl ?_ ?_
    · rw [hdz 0, hdz 1]
      norm_num
    · rw [hz0]
      linarith
  have htc : t_to_converge_preWave envZ.nnodes
      (substepOut cfgZ envZ floodedW
        (hillslope_flux_wzeros envZ (dtZ * secondsPerYear)) st).dzbydt
      st.node_z envZ.flow_receiver (dtZ * secondsPerYear) =
      conv_factor * st.node_z 1 := by
    rw [tconv_single _ _ _ _ _ hpairs]
    rw [show envZ.flow_receiver 1 = 0 from rfl, hdz 0, hdz 1, hz0]
    norm_num
  simp only [substepThis0]
  rw [htc, max_tstep_wave_Z, dtZ_secs]
  have h1 : min (conv_factor * st.node_z 1) (2 / 5) =
      conv_factor * st.node_z 1 :=
    min_eq_left (by rw [conv_factor]; nlinarith)
  rw [h1, if_neg (by simp [flood_node])]
  exact min_eq_left (by rw [conv_factor]; nlinarith)

theorem zeno_substep (st : LoopSt) (hP : zenoInv st) :
    (substep cfgZ envZ floodedW (dtZ * secondsPerYear)
      (max_tstep_wave cfgZ envZ)
      (hillslope_flux_wzeros envZ (dtZ * secondsPerYear)) st).2.brk = false ∧
    zenoInv (substep cfgZ envZ floodedW (dtZ * secondsPerYear)
      (max_tstep_wave cfgZ envZ)
      (hillslope_flux_wzeros envZ (dtZ * secondsPerYear)) st).1 := by
  obtain ⟨hz1, hz0, hels, hhill, hel0, hsum, hds⟩ := hP
  have hthis0 := zeno_this0 st ⟨hz1, hz0, hels, hhill, hel0, hsum, hds⟩
  have hnb : ¬(dtZ * secondsPerYear ≤ st.t_elapsed_internal +
      substepThis0 cfgZ envZ floodedW (dtZ * secondsPerYear)
        (max_tstep_wave cfgZ envZ)
        (hillslope_flux_wzeros envZ (dtZ * secondsPerYear)) st) := by
    rw [hthis0, dtZ_secs, conv_factor]
    intro hcon
    nlinarith
  have happ : substepApplied cfgZ envZ floodedW (dtZ * secondsPerYear)
      (max_tstep_wave cfgZ envZ)
      (hillslope_flux_wzeros envZ (dtZ * secondsPerYear)) st =
      conv_factor * st.node_z 1 := by
    rw [substepApplied_eq, if_neg hnb, hthis0]
  have hdz := zeno_out st hds
  have hels' : (substep cfgZ envZ floodedW (dtZ * secondsPerYear)
      (max_tstep_wave cfgZ envZ)
      (hillslope_flux_wzeros envZ (dtZ * secondsPerYear)) st).1.elev_less_sed 1 =
      st.node_z 1 - conv_factor * st.node_z 1 := by
    rw [substep_fst_els, if_pos (show (1 : ℕ) ∈ envZ.coreNodes from by decide),
      hels, happ, hdz 1]
    norm_num
    ring
  have hhill' : (substep cfgZ envZ floodedW (dtZ * secondsPerYear)
      (max_tstep_wave cfgZ envZ)
      (hillslope_flux_wzeros envZ (dtZ * secondsPerYear)) st).1.hillslope_sed 1 =
      0 := by
    rw [substep_fst_hill, if_neg (show (1 : ℕ) ∉ envZ.nodeAtCell from by decide),
      hhill]
  have hzz1 : (substep cfgZ envZ floodedW (dtZ * secondsPerYear)
      (max_tstep_wave cfgZ envZ)
      (hillslope_flux_wzeros envZ (dtZ * secondsPerYear)) st).1.node_z 1 =
      st.node_z 1 - conv_factor * st.node_z 1 := by
    rw [substep_fst_z, if_pos (show (1 : ℕ) ∈ envZ.coreNodes from by decide),
      hels', hhill', add_zero]
  have hzz0 : (substep cfgZ envZ floodedW (dtZ * secondsPerYear)
      (max_tstep_wave cfgZ envZ)
      (hillslope_flux_wzeros envZ (dtZ * secondsPerYear)) st).1.node_z 0 = 0 := by
    rw [substep_fst_z, if_neg (show (0 : ℕ) ∉ envZ.coreNodes from by decide), hz0]
  have helap' : (substep cfgZ envZ floodedW (dtZ * secondsPerYear)
      (max_tstep_wave cfgZ envZ)
      (hillslope_flux_wzeros envZ (dtZ * secondsPerYear)) st).1.t_elapsed_internal =
      st.t_elapsed_internal + conv_factor * st.node_z 1 := by
    rw [substep_fst_elapsed, hthis0]
  have hzpos : 0 < st.node_z 1 - conv_factor * st.node_z 1 := by
    rw [conv_factor]
    nlinarith
  have hds' : (substep cfgZ envZ floodedW (dtZ * secondsPerYear)
      (max_tstep_wave cfgZ envZ)
      (hillslope_flux_wzeros envZ (dtZ * secondsPerYear)) st).1.downward_slopes 1 =
      st.node_z 1 - conv_factor * st.node_z 1 := by
    rw [substep_fst_slopes, if_neg hnb]
    show max (if (1 : ℕ) ∈ coreDrainingNodes envZ then
        ((substep cfgZ envZ floodedW (dtZ * secondsPerYear)
          (max_tstep_wave cfgZ envZ)
          (hillslope_flux_wzeros envZ (dtZ * secondsPerYear)) st).1.node_z 1 -
         (substep cfgZ envZ floodedW (dtZ * secondsPerYear)
          (max_tstep_wave cfgZ envZ)
          (hillslope_flux_wzeros envZ (dtZ * secondsPerYear)) st).1.node_z
           (envZ.flow_receiver 1)) / linkLenQ envZ 1
      else 0) 0 = st.node_z 1 - conv_factor * st.node_z 1
    rw [if_pos (show (1 : ℕ) ∈ coreDrainingNodes envZ from by decide)]
    rw [show envZ.flow_receiver 1 = 0 from rfl, hzz1, hzz0, sub_zero]
    rw [show linkLenQ envZ 1 = 1 from rfl, div_one]
    exact max_eq_left (le_of_lt hzpos)
  constructor
  · rw [substep_snd_brk]
    exact decide_eq_false hnb
  · exact ⟨by rw [hzz1]; exact hzpos, hzz0, by rw [hels', hzz1],
      hhill', by rw [helap']; rw [conv_factor] at *; nlinarith,
      by rw [helap', hzz1]; linarith, by rw [hds']; exact hzpos⟩

theorem zenoInv_init : zenoInv (initLoopSt envZ) := by
  refine ⟨?_, ?_, ?_, ?_, ?_, ?_, ?_⟩
  · norm_num [initLoopSt, envZ]
  · norm_num [initLoopSt, envZ]
  · norm_num [initLoopSt, envZ]
  · rfl
  · norm_num [initLoopSt]
  · norm_num [initLoopSt, envZ]
  · show 0 < max (envZ.node_S 1) machineEps
    rw [show envZ.node_S 1 = 2 from rfl]
    exact lt_max_of_lt_left (by norm_num)

theorem zeno_never_breaks :
    ∀ (fuel : ℕ) (st : LoopSt), zenoInv st →
      (erodeLoop cfgZ envZ floodedW (dtZ * secondsPerYear)
        (max_tstep_wave cfgZ envZ)
        (hillslope_flux_wzeros envZ (dtZ * secondsPerYear)) fuel st).2.2 =
        false := by
  intro fuel
  induction fuel with
  | zero => intro st _; rfl
  | succ fuel ih =>
    intro st hP
    obtain ⟨hbrk, hP'⟩ := zeno_substep st hP
    rw [erodeLoop_succ_nobrk cfgZ envZ floodedW (dtZ * secondsPerYear)
      (max_tstep_wave cfgZ envZ)
      (hillslope_flux_wzeros envZ (dtZ * secondsPerYear)) fuel st hbrk]
    exact ih _ hP'

/-- Counterexample to C6 as stated: on a concrete two-node network with
`n_sp = 0` (slope-independent incision rate) and a strictly positive
timestep `dtZ` (so `dt_secs = 2` seconds), the sub-step loop NEVER
reaches its `break`, however many passes it runs: the convergence
criterion always binds and consumes only a 0.3 fraction of the remaining
gap at every pass (a Zeno run), the cumulative elapsed time stays below
1 second forever, and the dead 1-hour floor never intervenes. -/
theorem C6_nontermination_counterexample :
    0 < dtZ ∧
    (∀ fuel : ℕ, (erode cfgZ envZ dtZ floodedW fuel).broke = false) := by
  refine ⟨by norm_num [dtZ], ?_⟩
  intro fuel
  rw [erode_broke]
  exact zeno_never_breaks fuel (initLoopSt envZ) zenoInv_init

/- ------------------------------------------------------------------ -/
/- The two-sub-step run on envX: detachment-limited in the first
   sub-step, transport-limited in the final one (claim C1). -/
/- ------------------------------------------------------------------ -/

theorem dtX_secs : dtX * secondsPerYear = 1 / 2 := by
  norm_num [dtX, secondsPerYear]

theorem hfluxX1 :
    hillslope_flux_wzeros envX (dtX * secondsPerYear) 1 = 2 / 5 := by
  rw [hillslope_flux_wzeros,
    if_pos (show (1 : ℕ) ∈ envX.nodeAtCell from by decide), dtX_secs]
  norm_num [envX]

theorem coreDraining_X : coreDrainingNodes envX = [1] := by decide

theorem max_tstep_wave_X : max_tstep_wave cfgX envX = 2 / 5 := by
  rw [max_tstep_wave, waveRatios_eq, coreDraining_X]
  have hclose : iscloseOne ((cfgX.n_sp : ℤ) : ℚ) = true := by
    rw [iscloseOne]
    norm_num [cfgX]
  have hd1 : wave_stab_cond_denominator cfgX envX 1 = 1 := by
    rw [wave_stab_cond_denominator, if_pos hclose, erosion_prefactor_withA,
      K_unit_time]
    norm_num [cfgX, envX, secondsPerYear]
  have hl1 : linkLenQ envX 1 = 2 := by
    rw [linkLenQ]
    rfl
  rw [List.map_cons, List.map_nil, hd1, hl1]
  rw [show listMin [(2 : ℚ) / 1] = (2 : ℚ) / 1 from rfl]
  norm_num [WAVE_STABILITY_PREFACTOR]

theorem capsX (st : LoopSt) :
    substepCaps cfgX envX floodedW st 1 = st.downward_slopes 1 := by
  rw [substepCaps, transport_capacity_prefactor_withA, Kt_unit]
  rw [if_neg (by rw [show floodedW 1 = false from rfl]; exact Bool.false_ne_true)]
  rw [show cfgX.n_t = 1 from rfl, zpow_one]
  norm_num [cfgX, envX, secondsPerYear]

theorem eprefX (st : LoopSt) :
    substepEpref cfgX envX floodedW st 1 = st.downward_slopes 1 := by
  rw [substepEpref, erosion_prefactor_withA, K_unit_time]
  rw [if_neg (by rw [show floodedW 1 = false from rfl]; exact Bool.false_ne_true)]
  rw [show cfgX.n_sp = 1 from rfl, zpow_one]
  norm_num [cfgX, envX, secondsPerYear]

theorem dsX_init : (initLoopSt envX).downward_slopes 1 = 1 / 2 := by
  show max (envX.node_S 1) machineEps = 1 / 2
  rw [show envX.node_S 1 = 1 / 2 from rfl]
  exact max_eq_left (by norm_num [machineEps])

theorem outX_first_dz :
    ∀ j, (substepOut cfgX envX floodedW
      (hillslope_flux_wzeros envX (dtX * secondsPerYear))
      (initLoopSt envX)).dzbydt j =
      (if j = 1 then -(1 / 2) else 0) := by
  intro j
  rw [substepOut, show envX.s_in = [1, 0] from rfl]
  have hq : hillslope_flux_wzeros envX (dtX * secondsPerYear) 1 +
      kernelInit.river_in 1 <
      substepCaps cfgX envX floodedW (initLoopSt envX) 1 := by
    rw [hfluxX1, capsX, show kernelInit.river_in 1 = 0 from rfl, add_zero,
      dsX_init]
    norm_num
  rw [outDL_dz envX.coreNodes _ _ _ _ _ (by decide) (by decide) hq j]
  split_ifs with hj
  · rw [eprefX, dsX_init]
    norm_num [cfgX, sed_flux_fn_gen_const]
  · rfl

theorem outX_first_vol :
    ∀ j, (substepOut cfgX envX floodedW
      (hillslope_flux_wzeros envX (dtX * secondsPerYear))
      (initLoopSt envX)).voldroprate j = 0 := by
  intro j
  rw [substepOut, show envX.s_in = [1, 0] from rfl]
  have hq : hillslope_flux_wzeros envX (dtX * secondsPerYear) 1 +
      kernelInit.river_in 1 <
      substepCaps cfgX envX floodedW (initLoopSt envX) 1 := by
    rw [hfluxX1, capsX, show kernelInit.river_in 1 = 0 from rfl, add_zero,
      dsX_init]
    norm_num
  exact outDL_vol envX.coreNodes _ _ _ _ _ (by decide) (by decide) hq j

theorem this0X_first : substepThis0 cfgX envX floodedW (dtX * secondsPerYear)
    (max_tstep_wave cfgX envX)
    (hillslope_flux_wzeros envX (dtX * secondsPerYear)) (initLoopSt envX) =
    2 / 5 := by
  have hpairs : convergingPairs envX.nnodes
      (substepOut cfgX envX floodedW
        (hillslope_flux_wzeros envX (dtX * secondsPerYear))
        (initLoopSt envX)).dzbydt
      (initLoopSt envX).node_z envX.flow_receiver = [1] := by
    rw [show envX.nnodes = 2 from rfl]
    refine convergingPairs_two _ _ _ rfl rfl ?_ ?_
    · rw [outX_first_dz 0, outX_first_dz 1]
      norm_num
    · norm_num [initLoopSt, envX]
  have htc : t_to_converge_preWave envX.nnodes
      (substepOut cfgX envX floodedW
        (hillslope_flux_wzeros envX (dtX * secondsPerYear))
        (initLoopSt envX)).dzbydt
      (initLoopSt envX).node_z envX.flow_receiver (dtX * secondsPerYear) =
      3 / 5 := by
    rw [tconv_single _ _ _ _ _ hpairs]
    rw [show envX.flow_receiver 1 = 0 from rfl, outX_first_dz 0,
      outX_first_dz 1]
    norm_num [conv_factor, initLoopSt, envX]
  simp only [substepThis0]
  rw [htc, max_tstep_wave_X, dtX_secs]
  have h1 : min (3 / 5 : ℚ) (2 / 5) = 2 / 5 := min_eq_right (by norm_num)
  rw [h1, if_neg (by simp [flood_node])]
  exact min_eq_left (by norm_num)

theorem nobrkX_first : ¬(dtX * secondsPerYear ≤
    (initLoopSt envX).t_elapsed_internal +
    substepThis0 cfgX envX floodedW (dtX * secondsPerYear)
      (max_tstep_wave cfgX envX)
      (hillslope_flux_wzeros envX (dtX * secondsPerYear))
      (initLoopSt envX)) := by
  rw [this0X_first, dtX_secs,
    show (initLoopSt envX).t_elapsed_internal = 0 from rfl]
  norm_num

theorem appliedX_first : substepApplied cfgX envX floodedW
    (dtX * secondsPerYear) (max_tstep_wave cfgX envX)
    (hillslope_flux_wzeros envX (dtX * secondsPerYear)) (initLoopSt envX) =
    2 / 5 := by
  rw [substepApplied_eq, if_neg nobrkX_first, this0X_first]

theorem brkX_first : (substep cfgX envX floodedW (dtX * secondsPerYear)
    (max_tstep_wave cfgX envX)
    (hillslope_flux_wzeros envX (dtX * secondsPerYear))
    (initLoopSt envX)).2.brk = false := by
  rw [substep_snd_brk]
  exact decide_eq_false nobrkX_first

theorem stX1_eq : stX1 =
    (substep cfgX envX floodedW (dtX * secondsPerYear)
      (max_tstep_wave cfgX envX)
      (hillslope_flux_wzeros envX (dtX * secondsPerYear))
      (initLoopSt envX)).1 := rfl

theorem stX1_els : stX1.elev_less_sed 1 = 3 / 5 := by
  rw [stX1_eq, substep_fst_els,
    if_pos (show (1 : ℕ) ∈ envX.coreNodes from by decide),
    outX_first_dz 1, appliedX_first]
  norm_num [initLoopSt, envX]

theorem stX1_hill : stX1.hillslope_sed 1 = 0 := by
  rw [stX1_eq, substep_fst_hill,
    if_pos (show (1 : ℕ) ∈ envX.nodeAtCell from by decide),
    outX_first_vol 1]
  norm_num

theorem stX1_z1 : stX1.node_z 1 = 3 / 5 := by
  rw [stX1_eq, substep_fst_z,
    if_pos (show (1 : ℕ) ∈ envX.coreNodes from by decide),
    ← stX1_eq, stX1_els, stX1_hill]
  norm_num

theorem stX1_z0 : stX1.node_z 0 = 0 := by
  rw [stX1_eq, substep_fst_z,
    if_neg (show (0 : ℕ) ∉ envX.coreNodes from by decide)]
  rfl

theorem stX1_elapsed : stX1.t_elapsed_internal = 2 / 5 := by
  rw [stX1_eq, substep_fst_elapsed, this0X_first,
    show (initLoopSt envX).t_elapsed_internal = 0 from rfl, zero_add]

theorem stX1_slope : stX1.downward_slopes 1 = 3 / 10 := by
  rw [stX1_eq, substep_fst_slopes, if_neg nobrkX_first]
  show max (if (1 : ℕ) ∈ coreDrainingNodes envX then
      ((substep cfgX envX floodedW (dtX * secondsPerYear)
        (max_tstep_wave cfgX envX)
        (hillslope_flux_wzeros envX (dtX * secondsPerYear))
        (initLoopSt envX)).1.node_z 1 -
       (substep cfgX envX floodedW (dtX * secondsPerYear)
        (max_tstep_wave cfgX envX)
        (hillslope_flux_wzeros envX (dtX * secondsPerYear))
        (initLoopSt envX)).1.node_z (envX.flow_receiver 1)) / linkLenQ envX 1
    else 0) 0 = 3 / 10
  rw [if_pos (show (1 : ℕ) ∈ coreDrainingNodes envX from by decide)]
  rw [show envX.flow_receiver 1 = 0 from rfl, ← stX1_eq, stX1_z1, stX1_z0,
    show linkLenQ envX 1 = 2 from rfl]
  rw [max_eq_left (show (0 : ℚ) ≤ (3 / 5 - 0) / 2 by norm_num)]
  norm_num

theorem outX_second :
    (substepOut cfgX envX floodedW
      (hillslope_flux_wzeros envX (dtX * secondsPerYear)) stX1).is_it_TL 1 =
      true ∧
    (∀ j, (substepOut cfgX envX floodedW
      (hillslope_flux_wzeros envX (dtX * secondsPerYear)) stX1).dzbydt j =
      0) ∧
    (substepOut cfgX envX floodedW
      (hillslope_flux_wzeros envX (dtX * secondsPerYear)) stX1).voldroprate 1 =
      1 / 10 := by
  have hq : ¬(hillslope_flux_wzeros envX (dtX * secondsPerYear) 1 +
      kernelInit.river_in 1 < substepCaps cfgX envX floodedW stX1 1) := by
    rw [hfluxX1, capsX, show kernelInit.river_in 1 = 0 from rfl, add_zero,
      stX1_slope]
    norm_num
  have h := outTL_proj envX.coreNodes
    (hillslope_flux_wzeros envX (dtX * secondsPerYear))
    (substepCaps cfgX envX floodedW stX1)
    (substepEpref cfgX envX floodedW stX1)
    envX.flow_receiver cfgX.sedFluxFn (by decide) (by decide) hq
  refine ⟨h.1, h.2.1, ?_⟩
  have h2 : (substepOut cfgX envX floodedW
      (hillslope_flux_wzeros envX (dtX * secondsPerYear)) stX1).voldroprate 1 =
      hillslope_flux_wzeros envX (dtX * secondsPerYear) 1 +
        kernelInit.river_in 1 - substepCaps cfgX envX floodedW stX1 1 := h.2.2
  rw [h2, hfluxX1, capsX, show kernelInit.river_in 1 = 0 from rfl, add_zero,
    stX1_slope]
  norm_num

theorem this0X_second : substepThis0 cfgX envX floodedW (dtX * secondsPerYear)
    (max_tstep_wave cfgX envX)
    (hillslope_flux_wzeros envX (dtX * secondsPerYear)) stX1 = 3 / 20 := by
  have hpairs : convergingPairs envX.nnodes
      (substepOut cfgX envX floodedW
        (hillslope_flux_wzeros envX (dtX * secondsPerYear)) stX1).dzbydt
      stX1.node_z envX.flow_receiver = [] :=
    convergingPairs_of_dz_zero envX.nnodes _ stX1.node_z envX.flow_receiver
      outX_second.2.1
  have htc : t_to_converge_preWave envX.nnodes
      (substepOut cfgX envX floodedW
        (hillslope_flux_wzeros envX (dtX * secondsPerYear)) stX1).dzbydt
      stX1.node_z envX.flow_receiver (dtX * secondsPerYear) =
      conv_factor * (dtX * secondsPerYear) :=
    tconv_of_no_pairs envX.nnodes _ stX1.node_z envX.flow_receiver
      (dtX * secondsPerYear) hpairs
  simp only [substepThis0]
  rw [htc, max_tstep_wave_X, dtX_secs]
  have h1 : min (conv_factor * (1 / 2 : ℚ)) (2 / 5) = conv_factor * (1 / 2) :=
    min_eq_left (by rw [conv_factor]; norm_num)
  rw [h1, if_neg (by simp [flood_node])]
  rw [conv_factor, show (3 / 10 : ℚ) * (1 / 2) = 3 / 20 from by norm_num]
  exact min_eq_left (by norm_num)

theorem brkX_second_cond : dtX * secondsPerYear ≤ stX1.t_elapsed_internal +
    substepThis0 cfgX envX floodedW (dtX * secondsPerYear)
      (max_tstep_wave cfgX envX)
      (hillslope_flux_wzeros envX (dtX * secondsPerYear)) stX1 := by
  rw [this0X_second, stX1_elapsed, dtX_secs]
  norm_num

theorem appliedX_second : substepApplied cfgX envX floodedW
    (dtX * secondsPerYear) (max_tstep_wave cfgX envX)
    (hillslope_flux_wzeros envX (dtX * secondsPerYear)) stX1 = 1 / 10 := by
  rw [substepApplied_eq, if_pos brkX_second_cond, this0X_second, stX1_elapsed,
    dtX_secs]
  norm_num

theorem brkX_second : (substep cfgX envX floodedW (dtX * secondsPerYear)
    (max_tstep_wave cfgX envX)
    (hillslope_flux_wzeros envX (dtX * secondsPerYear)) stX1).2.brk = true := by
  rw [substep_snd_brk]
  exact decide_eq_true brkX_second_cond

theorem stX2_hill : (substep cfgX envX floodedW (dtX * secondsPerYear)
    (max_tstep_wave cfgX envX)
    (hillslope_flux_wzeros envX (dtX * secondsPerYear))
    stX1).1.hillslope_sed 1 = 1 / 100 := by
  rw [substep_fst_hill,
    if_pos (show (1 : ℕ) ∈ envX.nodeAtCell from by decide),
    outX_second.2.2, appliedX_second]
  norm_num [envX]

theorem stX2_els : (substep cfgX envX floodedW (dtX * secondsPerYear)
    (max_tstep_wave cfgX envX)
    (hillslope_flux_wzeros envX (dtX * secondsPerYear))
    stX1).1.elev_less_sed 1 = 3 / 5 := by
  rw [substep_fst_els,
    if_pos (show (1 : ℕ) ∈ envX.coreNodes from by decide),
    outX_second.2.1 1, zero_mul, add_zero, stX1_els]

theorem stX2_z : (substep cfgX envX floodedW (dtX * secondsPerYear)
    (max_tstep_wave cfgX envX)
    (hillslope_flux_wzeros envX (dtX * secondsPerYear))
    stX1).1.node_z 1 = 61 / 100 := by
  rw [substep_fst_z,
    if_pos (show (1 : ℕ) ∈ envX.coreNodes from by decide),
    stX2_els, stX2_hill]
  norm_num

theorem loopX_first : erodeLoop cfgX envX floodedW (dtX * secondsPerYear)
    (max_tstep_wave cfgX envX)
    (hillslope_flux_wzeros envX (dtX * secondsPerYear)) 2 (initLoopSt envX) =
    ((erodeLoop cfgX envX floodedW (dtX * secondsPerYear)
        (max_tstep_wave cfgX envX)
        (hillslope_flux_wzeros envX (dtX * secondsPerYear)) 1 stX1).1,
     (substep cfgX envX floodedW (dtX * secondsPerYear)
        (max_tstep_wave cfgX envX)
        (hillslope_flux_wzeros envX (dtX * secondsPerYear))
        (initLoopSt envX)).2 ::
       (erodeLoop cfgX envX floodedW (dtX * secondsPerYear)
         (max_tstep_wave cfgX envX)
         (hillslope_flux_wzeros envX (dtX * secondsPerYear)) 1 stX1).2.1,
     (erodeLoop cfgX envX floodedW (dtX * secondsPerYear)
       (max_tstep_wave cfgX envX)
       (hillslope_flux_wzeros envX (dtX * secondsPerYear)) 1 stX1).2.2) :=
  erodeLoop_succ_nobrk cfgX envX floodedW (dtX * secondsPerYear)
    (max_tstep_wave cfgX envX)
    (hillslope_flux_wzeros envX (dtX * secondsPerYear)) 1 (initLoopSt envX)
    brkX_first

theorem loopX_second : erodeLoop cfgX envX floodedW (dtX * secondsPerYear)
    (max_tstep_wave cfgX envX)
    (hillslope_flux_wzeros envX (dtX * secondsPerYear)) 1 stX1 =
    ((substep cfgX envX floodedW (dtX * secondsPerYear)
        (max_tstep_wave cfgX envX)
        (hillslope_flux_wzeros envX (dtX * secondsPerYear)) stX1).1,
     [(substep cfgX envX floodedW (dtX * secondsPerYear)
        (max_tstep_wave cfgX envX)
        (hillslope_flux_wzeros envX (dtX * secondsPerYear)) stX1).2], true) :=
  erodeLoop_succ_brk cfgX envX floodedW (dtX * secondsPerYear)
    (max_tstep_wave cfgX envX)
    (hillslope_flux_wzeros envX (dtX * secondsPerYear)) 0 stX1 brkX_second

theorem getLast_two {α : Type} (a b : α) :
    ([a, b] : List α).getLast? = some b := rfl

/-- Counterexample to C1 as stated: on a concrete two-node network with
uniform initial sediment depth `1/5` and a half-second call, the core
node is detachment-limited in the first sub-step (bedrock is incised)
and transport-limited in the second, final sub-step, so the final
`is_it_TL` flag of the call is true at the node; yet the final sediment
depth plus the net elevation drop is `2/5`, not the initial depth `1/5`:
the conservation budget of the claim fails whenever an earlier sub-step
of the same call incised bedrock. -/
theorem C1_final_TL_counterexample :
    envX.hillslope_sediment 1 = 1 / 5 ∧
    (1 : ℕ) ∈ envX.coreNodes ∧
    (erode cfgX envX dtX floodedW 2).broke = true ∧
    (erode cfgX envX dtX floodedW 2).is_it_TL 1 = true ∧
    (erode cfgX envX dtX floodedW 2).hillslope_sediment 1 +
      (envX.node_z 1 - (erode cfgX envX dtX floodedW 2).node_z 1) = 2 / 5 ∧
    (2 / 5 : ℚ) ≠ 1 / 5 := by
  refine ⟨rfl, by decide, ?_, ?_, ?_, by norm_num⟩
  · rw [erode_broke, loopX_first, loopX_second]
  · rw [erode_isTL, loopX_first, loopX_second, getLast_two]
    exact outX_second.1
  · rw [erode_hillsed, erode_z, loopX_first, loopX_second]
    show (substep cfgX envX floodedW (dtX * secondsPerYear)
        (max_tstep_wave cfgX envX)
        (hillslope_flux_wzeros envX (dtX * secondsPerYear))
        stX1).1.hillslope_sed 1 +
      (envX.node_z 1 - (substep cfgX envX floodedW (dtX * secondsPerYear)
        (max_tstep_wave cfgX envX)
        (hillslope_flux_wzeros envX (dtX * secondsPerYear))
        stX1).1.node_z 1) = 2 / 5
    rw [stX2_hill, stX2_z, show envX.node_z 1 = 1 from rfl]
    norm_num

end SedDep
